import Mathlib

/-!
# hybridimporter: construction of the hybrid importer

A shallow embedding of `hybridimporter.go` (`New`, `NewInstaller`, `newImpl`).

`newImpl` talks to four collaborators that live outside the file: the
`go list` process, the JSON decoder, the file system and the gc importer of
export data, and it ends by calling `srcimporter.New`.  They are gathered in a
`World`, and every function of the embedding is parametric in it.  Errors are
represented by their message (what `%v` prints).  Next to its result every
function returns the list of external calls it made, in order, so that
statements such as "no file is opened" can be expressed.

The query, the JSON decoder and the file system are functions of their
arguments.  The gc importer is an object: `importer.For` creates it once
(line 83) and it keeps a cache of packages across the `Import` calls of the
loop, so it is modelled as a state machine (`Importer`) whose answer for a path
may depend on the paths imported before.  The one thing Go leaves open, the
order in which `range` visits the keys of a map, is an explicit argument
(`RangeOrder`).
-/

namespace hybridimporter

/-! ## Data model -/

/-- The Go struct `pkgInfo` (lines 18-23): the fields of a `go list` record that are read. -/
structure pkgInfo where
  ImportPath : String
  Target : String
  Stale : Bool
  Name : String
deriving DecidableEq, Repr

/-- A Go `map[string]α`, kept as an association list in which every key occurs once. -/
def GoMap (α : Type) : Type := List (String × α)

/-- The empty map, `make(map[string]α)`. -/
def GoMap.empty {α : Type} : GoMap α := []

/-- The assignment `m[k] = v`: an earlier binding of `k` is replaced. -/
def GoMap.set {α : Type} (m : GoMap α) (k : String) (v : α) : GoMap α :=
  (k, v) :: List.filter (fun e => e.1 != k) m

/-- The index expression `v, ok := m[k]`. -/
def GoMap.get? {α : Type} (m : GoMap α) (k : String) : Option α :=
  List.lookup k m

/-- The keys of a map. -/
def GoMap.keys {α : Type} (m : GoMap α) : List String :=
  List.map Prod.fst m

/-- The order in which a `range` statement visits the keys of a map.  Go leaves the order
unspecified and only promises that every key present is visited once. -/
structure RangeOrder where
  visit : List String → List String
  perm : ∀ ks, (visit ks).Perm ks

/-- The three outcomes of `dec.Decode(&p)`. -/
inductive DecodeResult where
  | record (p : pkgInfo)
  | eof
  | failure (err : String)
deriving DecidableEq, Repr

/-- The external calls made during construction. -/
inductive Event where
  /-- The call `cmd.CombinedOutput()` for the command `name args...` run in `dir`. -/
  | exec (name : String) (args : List String) (dir : String)
  /-- A call of `dec.Decode(&p)` with its outcome. -/
  | decode (r : DecodeResult)
  /-- The call `os.Open(p.Target)` made while the record `p` is handled. -/
  | osOpen (p : pkgInfo)
  /-- The call `gc.Import(path)`. -/
  | gcImport (path : String)
deriving DecidableEq, Repr

/-- The object `importer.For` returns, a `types.Importer`: `init` is its state when it is
created (no package cached), and its method `Import`, called in state `s` for a path, returns a
package or an error and leaves the object in a new state. -/
structure Importer (St Pkg : Type) where
  (init : St)
  (Import : St → String → Except String Pkg × St)

/-- The collaborators of `newImpl`.
* `combinedOutput name args dir` is `exec.Command(name, args...)` with `cmd.Dir = dir`, run by
  `cmd.CombinedOutput()`: the captured output and the error, if any.
* `jsonDecode out` is the sequence of outcomes of the successive `dec.Decode(&p)` calls on
  `json.NewDecoder(bytes.NewReader(out))`, up to the point where the decoder reports `io.EOF`:
  `.ok p` for a decoded record, `.error err` for any error other than `io.EOF`.
* `osOpen` is `os.Open`.
* `importerFor compiler lookup` is `importer.For(compiler, lookup)`.
* `srcimporterNew` is `srcimporter.New`. -/
structure World (File Pkg Ctxt FSet Imp St : Type) where
  combinedOutput : String → List String → String → String × Option String
  jsonDecode : String → List (Except String pkgInfo)
  osOpen : String → Except String File
  importerFor : String → (String → Except String File) → Importer St Pkg
  srcimporterNew : Ctxt → FSet → GoMap Pkg → Bool → Imp

/-! ## The code -/

section Code

variable {File Pkg Ctxt FSet Imp St : Type}

/-- The guard of line 64: the record is skipped. -/
def skipped (p : pkgInfo) : Bool :=
  p.ImportPath == "unsafe" || p.Stale || p.Name == "main"

/-- The loop of lines 55-72 over the outcomes of `dec.Decode`, started with the map `lookups`. -/
def decodeLoop (W : World File Pkg Ctxt FSet Imp St) (path dir : String) :
    List (Except String pkgInfo) → GoMap File → Except String (GoMap File) × List Event
  | [], lookups => (.ok lookups, [.decode .eof])
  | .error err :: _, _ =>
    (.error ("failed to parse list for " ++ path ++ " in " ++ dir ++ ": " ++ err),
      [.decode (.failure err)])
  | .ok p :: rest, lookups =>
    if skipped p then
      let r := decodeLoop W path dir rest lookups
      (r.1, .decode (.record p) :: r.2)
    else
      match W.osOpen p.Target with
      | .error err =>
        (.error ("failed to open " ++ p.Target ++ ": " ++ err), [.decode (.record p), .osOpen p])
      | .ok fi =>
        let r := decodeLoop W path dir rest (GoMap.set lookups p.ImportPath fi)
        (r.1, .decode (.record p) :: .osOpen p :: r.2)

/-- The closure `lookup` of lines 74-81. -/
def lookup (lookups : GoMap File) (path : String) : Except String File :=
  match GoMap.get? lookups path with
  | none => .error ("failed to resolve " ++ path)
  | some rc => .ok rc

/-- The loop of lines 87-93 on the importer `gc` in state `s`, visiting the keys in the given
order, started with the map `tpkgs`. -/
def importLoop (gc : Importer St Pkg) :
    St → List String → GoMap Pkg → Except String (GoMap Pkg) × List Event
  | _, [], tpkgs => (.ok tpkgs, [])
  | s, path :: rest, tpkgs =>
    match gc.Import s path with
    | (.error err, _) =>
      (.error ("failed to gc import " ++ path ++ ": " ++ err), [.gcImport path])
    | (.ok p, s') =>
      let r := importLoop gc s' rest (GoMap.set tpkgs path p)
      (r.1, .gcImport path :: r.2)

/-- The arguments of the `go` command of line 43. -/
def listArgs (path : String) : List String := ["list", "-deps", "-test", "-json", path]

/-- Lines 83-93: the importer is created over the closure `lookup` of the table, and the paths
of the table are imported one after the other, in the order of the `range` statement, into a
fresh map. -/
def importAll (W : World File Pkg Ctxt FSet Imp St) (ro : RangeOrder) (lookups : GoMap File) :
    Except String (GoMap Pkg) × List Event :=
  let gc := W.importerFor "gc" (lookup lookups)
  importLoop gc gc.init (ro.visit (GoMap.keys lookups)) GoMap.empty

/-- The function `newImpl` (lines 42-96). -/
def newImpl (W : World File Pkg Ctxt FSet Imp St) (ro : RangeOrder) (ctxt : Ctxt) (fset : FSet)
    (path dir : String) (install : Bool) : Except String Imp × List Event :=
  let args := listArgs path
  match W.combinedOutput "go" args dir with
  | (out, some err) =>
    (.error ("failed to start list for " ++ path ++ " in " ++ dir ++ ": " ++ err ++ "\n" ++ out),
      [.exec "go" args dir])
  | (out, none) =>
    match decodeLoop W path dir (W.jsonDecode out) GoMap.empty with
    | (.error e, tr) => (.error e, .exec "go" args dir :: tr)
    | (.ok lookups, tr) =>
      match importAll W ro lookups with
      | (.error e, tr2) => (.error e, .exec "go" args dir :: (tr ++ tr2))
      | (.ok tpkgs, tr2) =>
        (.ok (W.srcimporterNew ctxt fset tpkgs install), .exec "go" args dir :: (tr ++ tr2))

/-- The function `New` (lines 27-29). -/
def New (W : World File Pkg Ctxt FSet Imp St) (ro : RangeOrder) (ctxt : Ctxt) (fset : FSet)
    (path dir : String) : Except String Imp × List Event :=
  newImpl W ro ctxt fset path dir false

/-- The function `NewInstaller` (lines 38-40). -/
def NewInstaller (W : World File Pkg Ctxt FSet Imp St) (ro : RangeOrder) (ctxt : Ctxt) (fset : FSet)
    (path dir : String) : Except String Imp × List Event :=
  newImpl W ro ctxt fset path dir true

end Code

/-! ## Vocabulary of the specification -/

/-- A record is binary-usable: it is ordinary (its import path is not "unsafe" and its name is
not "main") and it is not stale. -/
def binaryUsable (p : pkgInfo) : Prop :=
  p.ImportPath ≠ "unsafe" ∧ p.Name ≠ "main" ∧ p.Stale = false

instance (p : pkgInfo) : Decidable (binaryUsable p) := by
  unfold binaryUsable; infer_instance

/-- The metadata stream of a session: what the JSON decoder makes of the output of the query
for `path` run in `dir`. -/
def metadata {File Pkg Ctxt FSet Imp St : Type} (W : World File Pkg Ctxt FSet Imp St)
    (path dir : String) : List (Except String pkgInfo) :=
  W.jsonDecode (W.combinedOutput "go" (listArgs path) dir).1

/-- The import paths of the records of a stream are unique: two records with the same
`ImportPath` are the same record. -/
def uniquePaths (stream : List (Except String pkgInfo)) : Prop :=
  ∀ p q, Except.ok p ∈ stream → Except.ok q ∈ stream → p.ImportPath = q.ImportPath → p = q

/-- The records of a stream, in order. -/
def recordsOf (stream : List (Except String pkgInfo)) : List pkgInfo :=
  stream.filterMap Except.toOption

/-- The state of the importer `gc` after `Import` was called, from state `s`, for the paths of
`ks` one after the other. -/
def stateAfter {St Pkg : Type} (gc : Importer St Pkg) (s : St) (ks : List String) : St :=
  ks.foldl (fun s k => (gc.Import s k).2) s

/-- The importer of line 83 for a lookup table. -/
def gcOf {File Pkg Ctxt FSet Imp St : Type} (W : World File Pkg Ctxt FSet Imp St)
    (lookups : GoMap File) : Importer St Pkg :=
  W.importerFor "gc" (lookup lookups)

/-- The state of the importer of line 83 when the import loop has made its calls for the paths
of `pre`. -/
def gcStateAt {File Pkg Ctxt FSet Imp St : Type} (W : World File Pkg Ctxt FSet Imp St)
    (lookups : GoMap File) (pre : List String) : St :=
  stateAfter (gcOf W lookups) (gcOf W lookups).init pre

/-- The answer of the importer of line 83 for the path `k` once the calls for the paths of `pre`
have been made. -/
def gcAnswer {File Pkg Ctxt FSet Imp St : Type} (W : World File Pkg Ctxt FSet Imp St)
    (lookups : GoMap File) (pre : List String) (k : String) : Except String Pkg :=
  ((gcOf W lookups).Import (gcStateAt W lookups pre) k).1

/-- The answer of the importer `gc` for a path does not depend on its state, that is on the
paths imported before. -/
def stateless {St Pkg : Type} (gc : Importer St Pkg) : Prop :=
  ∀ s s' k, (gc.Import s k).1 = (gc.Import s' k).1

/-! ## Sessions used as examples -/

/-- A world in which a file is the name it was opened under and a package is a line of text:
the query returns `res`, the decoder yields `stream`, the files of `missing` cannot be opened and
the files of `corrupt` hold no valid export data.  The state of the importer is the list of the
files it has read; a pair `(f, path)` of `carried` says that once the file `f` has been read the
package `path` is complete in the cache of the importer, which then returns it without reading
its file. -/
def session (res : String × Option String) (stream : List (Except String pkgInfo))
    (missing corrupt : List String) (carried : List (String × String)) :
    World String String Unit Unit (GoMap String × Bool) (List String) where
  combinedOutput := fun _ _ _ => res
  jsonDecode := fun _ => stream
  osOpen := fun t =>
    if t ∈ missing then .error ("open " ++ t ++ ": no such file or directory") else .ok t
  importerFor := fun _ lk =>
    { init := []
      Import := fun read path =>
        if carried.any (fun c => c.2 == path && read.contains c.1) then
          (.ok ("package " ++ path), read)
        else
          match lk path with
          | .error e => (.error e, read)
          | .ok f =>
            (if f ∈ corrupt then .error ("bad export data in " ++ f)
              else .ok ("package " ++ path), f :: read) }
  srcimporterNew := fun _ _ tpkgs install => (tpkgs, install)

/-- The keys are visited in the order in which the map lists them. -/
def inOrder : RangeOrder := ⟨id, fun ks => List.Perm.refl ks⟩

/-- The keys are visited in the opposite order. -/
def reversed : RangeOrder := ⟨List.reverse, fun ks => List.reverse_perm ks⟩

/-- An ordinary package with an installed archive. -/
def pkgA : pkgInfo := ⟨"a", "/pkg/a.a", false, "a"⟩

/-- Another ordinary package with an installed archive. -/
def pkgB : pkgInfo := ⟨"b", "/pkg/b.a", false, "b"⟩

/-- The record `go list` prints for package unsafe: no `Target`, not stale. -/
def pkgUnsafe : pkgInfo := ⟨"unsafe", "", false, "unsafe"⟩

/-- A command. -/
def pkgMain : pkgInfo := ⟨"cmd", "/bin/cmd", false, "main"⟩

/-- A stale package. -/
def pkgStale : pkgInfo := ⟨"s", "/pkg/s.a", true, "s"⟩

/-- The type of the example sessions. -/
abbrev Session : Type := World String String Unit Unit (GoMap String × Bool) (List String)

/-- A closure with one package of every kind; the empty file name cannot be opened. -/
def sessionMixed : Session :=
  session ("", none) [.ok pkgA, .ok pkgUnsafe, .ok pkgMain, .ok pkgStale, .ok pkgB] [""] [] []

/-- Package `a` and its dependency unsafe; the empty file name cannot be opened. -/
def sessionUnsafe : Session :=
  session ("", none) [.ok pkgUnsafe, .ok pkgA] [""] [] []

/-- The archive of `b` is missing. -/
def sessionMissing : Session :=
  session ("", none) [.ok pkgStale, .ok pkgA, .ok pkgB] ["/pkg/b.a"] [] []

/-- The output of the query breaks off after the first record. -/
def sessionTruncated : Session :=
  session ("", none) [.ok pkgA, .error "unexpected EOF"] [] [] []

/-- The archive of `b` is missing and the output of the query breaks off after its record. -/
def sessionMissingTruncated : Session :=
  session ("", none) [.ok pkgB, .error "unexpected EOF"] ["/pkg/b.a"] [] []

/-- The archive of `b` holds no valid export data. -/
def sessionCorrupt : Session :=
  session ("", none) [.ok pkgA, .ok pkgB] [] ["/pkg/b.a"] []

/-- The archives of `a` and of `b` both hold no valid export data. -/
def sessionTwoCorrupt : Session :=
  session ("", none) [.ok pkgA, .ok pkgB] [] ["/pkg/a.a", "/pkg/b.a"] []

/-- The archive of `a` holds no valid export data, and reading the archive of `b` leaves the
package `a` complete in the cache of the importer. -/
def sessionCached : Session :=
  session ("", none) [.ok pkgA, .ok pkgB] [] ["/pkg/a.a"] [("/pkg/b.a", "a")]

/-- The query process exits with an error. -/
def sessionNoModule : Session :=
  session ("go: cannot find main module", some "exit status 1") [] [] [] []

/-! ## Maps -/

theorem GoMap.keys_empty {α : Type} : GoMap.keys (GoMap.empty : GoMap α) = [] := rfl

theorem GoMap.mem_keys_set {α : Type} (m : GoMap α) (k : String) (v : α) (k' : String) :
    k' ∈ GoMap.keys (GoMap.set m k v) ↔ k' = k ∨ k' ∈ GoMap.keys m := by
  unfold GoMap.keys GoMap.set
  simp only [List.map_cons, List.mem_cons, List.mem_map, List.mem_filter]
  constructor
  · rintro (h | ⟨⟨a, b⟩, ⟨hx, _⟩, rfl⟩)
    · exact Or.inl h
    · exact Or.inr ⟨(a, b), hx, rfl⟩
  · rintro (h | ⟨⟨a, b⟩, hx, rfl⟩)
    · exact Or.inl h
    · by_cases hk : a = k
      · exact Or.inl hk
      · exact Or.inr ⟨(a, b), ⟨hx, by simpa using hk⟩, rfl⟩

theorem GoMap.nodup_keys_set {α : Type} (m : GoMap α) (k : String) (v : α)
    (h : (GoMap.keys m).Nodup) : (GoMap.keys (GoMap.set m k v)).Nodup := by
  unfold GoMap.keys GoMap.set at *
  rw [List.map_cons, List.nodup_cons]
  constructor
  · simp only [List.mem_map, List.mem_filter, bne_iff_ne, ne_eq, not_exists, not_and]
    intro x hx hk
    exact absurd hk hx.2
  · exact (List.filter_sublist m).map Prod.fst |>.nodup h

theorem GoMap.get?_set {α : Type} (m : GoMap α) (k : String) (v : α) (k' : String) :
    GoMap.get? (GoMap.set m k v) k' = if k' = k then some v else GoMap.get? m k' := by
  unfold GoMap.get? GoMap.set
  by_cases hk : k' = k
  · subst hk
    simp [List.lookup]
  · have hne : (k' == k) = false := by simpa using hk
    simp only [List.lookup, hne, if_neg hk]
    induction m with
    | nil => rfl
    | cons e m ih =>
      obtain ⟨a, b⟩ := e
      by_cases ha : a = k
      · subst ha
        have h1 : (a != a) = false := by simp
        simp only [List.filter_cons, h1, List.lookup, hne]
        simpa using ih
      · have h1 : (a != k) = true := by simpa using ha
        simp only [List.filter_cons, h1, List.lookup, if_true]
        by_cases hb : k' = a
        · subst hb
          simp
        · have h2 : (k' == a) = false := by simpa using hb
          simp only [h2]
          exact ih

/-! ## The decode loop (lines 55-72) -/

section DecodeLoop

variable {File Pkg Ctxt FSet Imp St : Type}

theorem skipped_eq_false_iff (p : pkgInfo) : skipped p = false ↔ binaryUsable p := by
  unfold skipped binaryUsable
  cases hs : p.Stale <;> simp

theorem skipped_eq_true_iff (p : pkgInfo) : skipped p = true ↔ ¬ binaryUsable p := by
  rw [← skipped_eq_false_iff]
  cases skipped p <;> simp

theorem decodeLoop_nil (W : World File Pkg Ctxt FSet Imp St) (path dir : String)
    (m : GoMap File) :
    decodeLoop W path dir [] m = (.ok m, [.decode .eof]) := rfl

theorem decodeLoop_failure (W : World File Pkg Ctxt FSet Imp St) (path dir err : String)
    (rest : List (Except String pkgInfo)) (m : GoMap File) :
    decodeLoop W path dir (.error err :: rest) m =
      (.error ("failed to parse list for " ++ path ++ " in " ++ dir ++ ": " ++ err),
        [.decode (.failure err)]) := rfl

theorem decodeLoop_skip (W : World File Pkg Ctxt FSet Imp St) (path dir : String) (p : pkgInfo)
    (rest : List (Except String pkgInfo)) (m : GoMap File) (hp : skipped p = true) :
    decodeLoop W path dir (.ok p :: rest) m =
      ((decodeLoop W path dir rest m).1, .decode (.record p) :: (decodeLoop W path dir rest m).2) := by
  simp [decodeLoop, hp]

theorem decodeLoop_open_error (W : World File Pkg Ctxt FSet Imp St) (path dir : String)
    (p : pkgInfo) (rest : List (Except String pkgInfo)) (m : GoMap File) (err : String)
    (hp : skipped p = false) (ho : W.osOpen p.Target = .error err) :
    decodeLoop W path dir (.ok p :: rest) m =
      (.error ("failed to open " ++ p.Target ++ ": " ++ err),
        [.decode (.record p), .osOpen p]) := by
  simp [decodeLoop, hp, ho]

theorem decodeLoop_open_ok (W : World File Pkg Ctxt FSet Imp St) (path dir : String)
    (p : pkgInfo) (rest : List (Except String pkgInfo)) (m : GoMap File) (fi : File)
    (hp : skipped p = false) (ho : W.osOpen p.Target = .ok fi) :
    decodeLoop W path dir (.ok p :: rest) m =
      ((decodeLoop W path dir rest (GoMap.set m p.ImportPath fi)).1,
        .decode (.record p) :: .osOpen p ::
          (decodeLoop W path dir rest (GoMap.set m p.ImportPath fi)).2) := by
  simp [decodeLoop, hp, ho]

/-- The keys of the table a successful decode loop returns: those it started with and the paths
of the binary-usable records. -/
theorem decodeLoop_keys (W : World File Pkg Ctxt FSet Imp St) (path dir : String) :
    ∀ (s : List (Except String pkgInfo)) (m m' : GoMap File),
      (decodeLoop W path dir s m).1 = .ok m' →
      ∀ k, k ∈ GoMap.keys m' ↔
        (k ∈ GoMap.keys m ∨ ∃ p, Except.ok p ∈ s ∧ p.ImportPath = k ∧ binaryUsable p) := by
  intro s
  induction s with
  | nil =>
    intro m m' h k
    rw [decodeLoop_nil] at h
    cases h
    simp
  | cons x rest ih =>
    intro m m' h k
    cases x with
    | error err =>
      rw [decodeLoop_failure] at h
      cases h
    | ok p =>
      cases hp : skipped p with
      | true =>
        rw [decodeLoop_skip W path dir p rest m hp] at h
        rw [ih m m' h k]
        have hnu : ¬ binaryUsable p := (skipped_eq_true_iff p).1 hp
        constructor
        · rintro (h1 | ⟨q, hq, hk, hu⟩)
          · exact Or.inl h1
          · exact Or.inr ⟨q, List.mem_cons_of_mem _ hq, hk, hu⟩
        · rintro (h1 | ⟨q, hq, hk, hu⟩)
          · exact Or.inl h1
          · rcases List.mem_cons.1 hq with heq | hq
            · cases heq
              exact absurd hu hnu
            · exact Or.inr ⟨q, hq, hk, hu⟩
      | false =>
        have hu : binaryUsable p := (skipped_eq_false_iff p).1 hp
        cases ho : W.osOpen p.Target with
        | error err =>
          rw [decodeLoop_open_error W path dir p rest m err hp ho] at h
          cases h
        | ok fi =>
          rw [decodeLoop_open_ok W path dir p rest m fi hp ho] at h
          rw [ih _ m' h k, GoMap.mem_keys_set]
          constructor
          · rintro ((h1 | h1) | ⟨q, hq, hk, hq2⟩)
            · exact Or.inr ⟨p, List.mem_cons_self _ _, h1.symm, hu⟩
            · exact Or.inl h1
            · exact Or.inr ⟨q, List.mem_cons_of_mem _ hq, hk, hq2⟩
          · rintro (h1 | ⟨q, hq, hk, hq2⟩)
            · exact Or.inl (Or.inr h1)
            · rcases List.mem_cons.1 hq with heq | hq
              · cases heq
                exact Or.inl (Or.inl hk.symm)
              · exact Or.inr ⟨q, hq, hk, hq2⟩

/-- A successful decode loop keeps the keys of the table distinct. -/
theorem decodeLoop_nodup (W : World File Pkg Ctxt FSet Imp St) (path dir : String) :
    ∀ (s : List (Except String pkgInfo)) (m m' : GoMap File),
      (decodeLoop W path dir s m).1 = .ok m' → (GoMap.keys m).Nodup → (GoMap.keys m').Nodup := by
  intro s
  induction s with
  | nil =>
    intro m m' h hm
    rw [decodeLoop_nil] at h
    cases h
    exact hm
  | cons x rest ih =>
    intro m m' h hm
    cases x with
    | error err =>
      rw [decodeLoop_failure] at h
      cases h
    | ok p =>
      cases hp : skipped p with
      | true =>
        rw [decodeLoop_skip W path dir p rest m hp] at h
        exact ih m m' h hm
      | false =>
        cases ho : W.osOpen p.Target with
        | error err =>
          rw [decodeLoop_open_error W path dir p rest m err hp ho] at h
          cases h
        | ok fi =>
          rw [decodeLoop_open_ok W path dir p rest m fi hp ho] at h
          exact ih _ m' h (GoMap.nodup_keys_set m _ fi hm)

/-- The decode loop calls `os.Open` for binary-usable records only. -/
theorem decodeLoop_osOpen (W : World File Pkg Ctxt FSet Imp St) (path dir : String) (r : pkgInfo) :
    ∀ (s : List (Except String pkgInfo)) (m : GoMap File),
      Event.osOpen r ∈ (decodeLoop W path dir s m).2 → Except.ok r ∈ s ∧ binaryUsable r := by
  intro s
  induction s with
  | nil =>
    intro m h
    rw [decodeLoop_nil] at h
    simp at h
  | cons x rest ih =>
    intro m h
    cases x with
    | error err =>
      rw [decodeLoop_failure] at h
      simp at h
    | ok p =>
      cases hp : skipped p with
      | true =>
        rw [decodeLoop_skip W path dir p rest m hp] at h
        simp only [List.mem_cons, reduceCtorEq, false_or] at h
        obtain ⟨h1, h2⟩ := ih m h
        exact ⟨List.mem_cons_of_mem _ h1, h2⟩
      | false =>
        have hu : binaryUsable p := (skipped_eq_false_iff p).1 hp
        cases ho : W.osOpen p.Target with
        | error err =>
          rw [decodeLoop_open_error W path dir p rest m err hp ho] at h
          simp only [List.mem_cons, reduceCtorEq, false_or, Event.osOpen.injEq,
            List.mem_singleton, List.not_mem_nil, or_false] at h
          subst h
          exact ⟨List.mem_cons_self _ _, hu⟩
        | ok fi =>
          rw [decodeLoop_open_ok W path dir p rest m fi hp ho] at h
          simp only [List.mem_cons, reduceCtorEq, false_or, Event.osOpen.injEq] at h
          rcases h with h | h
          · subst h
            exact ⟨List.mem_cons_self _ _, hu⟩
          · obtain ⟨h1, h2⟩ := ih _ h
            exact ⟨List.mem_cons_of_mem _ h1, h2⟩

/-- The decode loop makes no `gc.Import` call. -/
theorem decodeLoop_no_gcImport (W : World File Pkg Ctxt FSet Imp St) (path dir k : String) :
    ∀ (s : List (Except String pkgInfo)) (m : GoMap File),
      Event.gcImport k ∉ (decodeLoop W path dir s m).2 := by
  intro s
  induction s with
  | nil =>
    intro m h
    rw [decodeLoop_nil] at h
    simp at h
  | cons x rest ih =>
    intro m h
    cases x with
    | error err =>
      rw [decodeLoop_failure] at h
      simp at h
    | ok p =>
      cases hp : skipped p with
      | true =>
        rw [decodeLoop_skip W path dir p rest m hp] at h
        simp only [List.mem_cons, reduceCtorEq, false_or] at h
        exact ih m h
      | false =>
        cases ho : W.osOpen p.Target with
        | error err =>
          rw [decodeLoop_open_error W path dir p rest m err hp ho] at h
          simp at h
        | ok fi =>
          rw [decodeLoop_open_ok W path dir p rest m fi hp ho] at h
          simp only [List.mem_cons, reduceCtorEq, false_or] at h
          exact ih _ h

/-- Under unique import paths, the path of a record that is not binary-usable is not a key of
the table a successful decode loop builds from the empty table. -/
theorem decodeLoop_absent (W : World File Pkg Ctxt FSet Imp St) (path dir : String)
    (s : List (Except String pkgInfo)) (lookups : GoMap File)
    (h : (decodeLoop W path dir s GoMap.empty).1 = .ok lookups) (hu : uniquePaths s)
    (r : pkgInfo) (hr : Except.ok r ∈ s) (hn : ¬ binaryUsable r) :
    r.ImportPath ∉ GoMap.keys lookups := by
  intro hk
  rcases (decodeLoop_keys W path dir s GoMap.empty lookups h r.ImportPath).1 hk with h1 | h1
  · simp [GoMap.keys_empty] at h1
  · obtain ⟨p, hp, hpath, hpu⟩ := h1
    have : p = r := hu p r hp hr hpath
    subst this
    exact hn hpu

/-- A successful decode loop opened the artifact of every binary-usable record. -/
theorem decodeLoop_ok_opened (W : World File Pkg Ctxt FSet Imp St) (path dir : String) :
    ∀ (s : List (Except String pkgInfo)) (m m' : GoMap File),
      (decodeLoop W path dir s m).1 = .ok m' →
      ∀ p, Except.ok p ∈ s → binaryUsable p → ∃ fi, W.osOpen p.Target = .ok fi := by
  intro s
  induction s with
  | nil => intro m m' _ p hp; cases hp
  | cons x rest ih =>
    intro m m' h q hq hqu
    cases x with
    | error err =>
      rw [decodeLoop_failure] at h
      cases h
    | ok p =>
      cases hp : skipped p with
      | true =>
        rw [decodeLoop_skip W path dir p rest m hp] at h
        rcases List.mem_cons.1 hq with heq | hq
        · cases heq
          exact absurd hqu ((skipped_eq_true_iff q).1 hp)
        · exact ih m m' h q hq hqu
      | false =>
        cases ho : W.osOpen p.Target with
        | error err =>
          rw [decodeLoop_open_error W path dir p rest m err hp ho] at h
          cases h
        | ok fi =>
          rw [decodeLoop_open_ok W path dir p rest m fi hp ho] at h
          rcases List.mem_cons.1 hq with heq | hq
          · cases heq
            exact ⟨fi, ho⟩
          · exact ih _ m' h q hq hqu

/-- The decode loop stops with the open error of the first binary-usable record whose artifact
cannot be opened, when the stream decodes up to that record. -/
theorem decodeLoop_first_open_error (W : World File Pkg Ctxt FSet Imp St) (path dir : String)
    (r : pkgInfo) (err : String) (post : List (Except String pkgInfo))
    (hu : binaryUsable r) (ho : W.osOpen r.Target = .error err) :
    ∀ (pre : List (Except String pkgInfo)) (m : GoMap File),
      (∀ x ∈ pre, ∃ p, x = Except.ok p ∧ (binaryUsable p → ∃ fi, W.osOpen p.Target = .ok fi)) →
      (decodeLoop W path dir (pre ++ .ok r :: post) m).1 =
        .error ("failed to open " ++ r.Target ++ ": " ++ err) := by
  intro pre
  induction pre with
  | nil =>
    intro m _
    rw [List.nil_append,
      decodeLoop_open_error W path dir r post m err ((skipped_eq_false_iff r).2 hu) ho]
  | cons x pre ih =>
    intro m hpre
    obtain ⟨p, rfl, hopen⟩ := hpre x (List.mem_cons_self _ _)
    have hrest := fun y hy => hpre y (List.mem_cons_of_mem _ hy)
    rw [List.cons_append]
    cases hp : skipped p with
    | true =>
      rw [decodeLoop_skip W path dir p _ m hp]
      exact ih m hrest
    | false =>
      obtain ⟨fi, hfi⟩ := hopen ((skipped_eq_false_iff p).1 hp)
      rw [decodeLoop_open_ok W path dir p _ m fi hp hfi]
      exact ih _ hrest

/-- When a `dec.Decode` call of the loop reports an error other than `io.EOF`, the loop returns
the parse error carrying it. -/
theorem decodeLoop_decode_failure (W : World File Pkg Ctxt FSet Imp St) (path dir err : String) :
    ∀ (s : List (Except String pkgInfo)) (m : GoMap File),
      Event.decode (.failure err) ∈ (decodeLoop W path dir s m).2 →
      (decodeLoop W path dir s m).1 =
        .error ("failed to parse list for " ++ path ++ " in " ++ dir ++ ": " ++ err) := by
  intro s
  induction s with
  | nil =>
    intro m h
    rw [decodeLoop_nil] at h
    simp at h
  | cons x rest ih =>
    intro m h
    cases x with
    | error e =>
      rw [decodeLoop_failure] at h ⊢
      simp only [List.mem_singleton, Event.decode.injEq, DecodeResult.failure.injEq] at h
      rw [h]
    | ok p =>
      cases hp : skipped p with
      | true =>
        rw [decodeLoop_skip W path dir p rest m hp] at h ⊢
        simp only [List.mem_cons, Event.decode.injEq, reduceCtorEq, false_or] at h
        exact ih m h
      | false =>
        cases ho : W.osOpen p.Target with
        | error e =>
          rw [decodeLoop_open_error W path dir p rest m e hp ho] at h
          simp at h
        | ok fi =>
          rw [decodeLoop_open_ok W path dir p rest m fi hp ho] at h ⊢
          simp only [List.mem_cons, Event.decode.injEq, reduceCtorEq, false_or] at h
          exact ih _ h

/-- Import paths that are pairwise distinct are unique. -/
theorem uniquePaths_of_nodup (s : List (Except String pkgInfo))
    (h : ((recordsOf s).map pkgInfo.ImportPath).Nodup) : uniquePaths s := by
  intro p q hp hq hpq
  have hp' : p ∈ recordsOf s := List.mem_filterMap.2 ⟨.ok p, hp, rfl⟩
  have hq' : q ∈ recordsOf s := List.mem_filterMap.2 ⟨.ok q, hq, rfl⟩
  exact List.inj_on_of_nodup_map h hp' hq' hpq

/-- The decode loop reaches a malformed record, and calls `dec.Decode` on it, when the records
before it decode and the artifact of every binary-usable one among them opens. -/
theorem decodeLoop_reaches_failure (W : World File Pkg Ctxt FSet Imp St) (path dir err : String)
    (post : List (Except String pkgInfo)) :
    ∀ (pre : List (Except String pkgInfo)) (m : GoMap File),
      (∀ x ∈ pre, ∃ p, x = Except.ok p ∧ (binaryUsable p → ∃ fi, W.osOpen p.Target = .ok fi)) →
      Event.decode (.failure err) ∈ (decodeLoop W path dir (pre ++ .error err :: post) m).2 := by
  intro pre
  induction pre with
  | nil =>
    intro m _
    rw [List.nil_append, decodeLoop_failure]
    exact List.mem_singleton.2 rfl
  | cons x pre ih =>
    intro m hpre
    obtain ⟨p, rfl, hopen⟩ := hpre x (List.mem_cons_self _ _)
    have hrest := fun y hy => hpre y (List.mem_cons_of_mem _ hy)
    rw [List.cons_append]
    cases hp : skipped p with
    | true =>
      rw [decodeLoop_skip W path dir p _ m hp]
      exact List.mem_cons_of_mem _ (ih m hrest)
    | false =>
      obtain ⟨fi, hfi⟩ := hopen ((skipped_eq_false_iff p).1 hp)
      rw [decodeLoop_open_ok W path dir p _ m fi hp hfi]
      exact List.mem_cons_of_mem _ (List.mem_cons_of_mem _ (ih _ hrest))

/-- The decode loop fails on every stream that holds a malformed record. -/
theorem decodeLoop_fails_of_failure (W : World File Pkg Ctxt FSet Imp St) (path dir err : String) :
    ∀ (s : List (Except String pkgInfo)) (m : GoMap File), Except.error err ∈ s →
      ∃ e, (decodeLoop W path dir s m).1 = .error e := by
  intro s
  induction s with
  | nil => intro m h; cases h
  | cons x rest ih =>
    intro m h
    cases x with
    | error e =>
      rw [decodeLoop_failure]
      exact ⟨_, rfl⟩
    | ok p =>
      have hrest : Except.error err ∈ rest := by
        rcases List.mem_cons.1 h with h | h
        · cases h
        · exact h
      cases hp : skipped p with
      | true =>
        rw [decodeLoop_skip W path dir p rest m hp]
        exact ih m hrest
      | false =>
        cases ho : W.osOpen p.Target with
        | error e =>
          rw [decodeLoop_open_error W path dir p rest m e hp ho]
          exact ⟨_, rfl⟩
        | ok fi =>
          rw [decodeLoop_open_ok W path dir p rest m fi hp ho]
          exact ih _ hrest

end DecodeLoop

/-! ## The import loop (lines 87-93) -/

section ImportLoop

variable {Pkg St : Type}

theorem stateAfter_nil (gc : Importer St Pkg) (s : St) : stateAfter gc s [] = s := rfl

theorem stateAfter_cons (gc : Importer St Pkg) (s : St) (k : String) (ks : List String) :
    stateAfter gc s (k :: ks) = stateAfter gc (gc.Import s k).2 ks := rfl

theorem importLoop_nil (gc : Importer St Pkg) (s : St) (t : GoMap Pkg) :
    importLoop gc s [] t = (.ok t, []) := rfl

theorem importLoop_cons_error (gc : Importer St Pkg) (s : St) (path : String)
    (rest : List String) (t : GoMap Pkg) (err : String)
    (h : (gc.Import s path).1 = .error err) :
    importLoop gc s (path :: rest) t =
      (.error ("failed to gc import " ++ path ++ ": " ++ err), [.gcImport path]) := by
  rcases hI : gc.Import s path with ⟨r, s'⟩
  rw [hI] at h
  cases h
  simp [importLoop, hI]

theorem importLoop_cons_ok (gc : Importer St Pkg) (s : St) (path : String)
    (rest : List String) (t : GoMap Pkg) (p : Pkg) (h : (gc.Import s path).1 = .ok p) :
    importLoop gc s (path :: rest) t =
      ((importLoop gc (gc.Import s path).2 rest (GoMap.set t path p)).1,
        .gcImport path :: (importLoop gc (gc.Import s path).2 rest (GoMap.set t path p)).2) := by
  rcases hI : gc.Import s path with ⟨r, s'⟩
  rw [hI] at h
  cases h
  simp [importLoop, hI]

/-- The keys of the map a successful import loop returns. -/
theorem importLoop_keys (gc : Importer St Pkg) :
    ∀ (ks : List String) (s : St) (t t' : GoMap Pkg), (importLoop gc s ks t).1 = .ok t' →
      ∀ k, k ∈ GoMap.keys t' ↔ (k ∈ GoMap.keys t ∨ k ∈ ks) := by
  intro ks
  induction ks with
  | nil =>
    intro s t t' h k
    rw [importLoop_nil] at h
    cases h
    simp
  | cons path rest ih =>
    intro s t t' h k
    cases hg : (gc.Import s path).1 with
    | error err =>
      rw [importLoop_cons_error gc s path rest t err hg] at h
      cases h
    | ok p =>
      rw [importLoop_cons_ok gc s path rest t p hg] at h
      rw [ih _ _ t' h k, GoMap.mem_keys_set, List.mem_cons]
      tauto

/-- A successful import loop keeps the keys of the map distinct. -/
theorem importLoop_nodup (gc : Importer St Pkg) :
    ∀ (ks : List String) (s : St) (t t' : GoMap Pkg), (importLoop gc s ks t).1 = .ok t' →
      (GoMap.keys t).Nodup → (GoMap.keys t').Nodup := by
  intro ks
  induction ks with
  | nil =>
    intro s t t' h ht
    rw [importLoop_nil] at h
    cases h
    exact ht
  | cons path rest ih =>
    intro s t t' h ht
    cases hg : (gc.Import s path).1 with
    | error err =>
      rw [importLoop_cons_error gc s path rest t err hg] at h
      cases h
    | ok p =>
      rw [importLoop_cons_ok gc s path rest t p hg] at h
      exact ih _ _ t' h (GoMap.nodup_keys_set t path p ht)

/-- A successful import loop leaves the value under a path it did not visit as it was. -/
theorem importLoop_get_of_not_mem (gc : Importer St Pkg) :
    ∀ (ks : List String) (s : St) (t t' : GoMap Pkg), (importLoop gc s ks t).1 = .ok t' →
      ∀ k, k ∉ ks → GoMap.get? t' k = GoMap.get? t k := by
  intro ks
  induction ks with
  | nil =>
    intro s t t' h k _
    rw [importLoop_nil] at h
    cases h
    rfl
  | cons path rest ih =>
    intro s t t' h k hk
    cases hg : (gc.Import s path).1 with
    | error err =>
      rw [importLoop_cons_error gc s path rest t err hg] at h
      cases h
    | ok p =>
      rw [importLoop_cons_ok gc s path rest t p hg] at h
      have hne : k ≠ path := fun h' => hk (by rw [h']; exact List.mem_cons_self _ _)
      rw [ih _ _ t' h k (fun h' => hk (List.mem_cons_of_mem _ h')), GoMap.get?_set,
        if_neg hne]

/-- The value a successful import loop stores under a path it visits once: the package the
importer returned for the path, in the state the paths visited before had left it in. -/
theorem importLoop_get_at (gc : Importer St Pkg) :
    ∀ (pre : List String) (s : St) (t t' : GoMap Pkg) (k : String) (post : List String),
      (importLoop gc s (pre ++ k :: post) t).1 = .ok t' → k ∉ post →
      ∃ p, (gc.Import (stateAfter gc s pre) k).1 = .ok p ∧ GoMap.get? t' k = some p := by
  intro pre
  induction pre with
  | nil =>
    intro s t t' k post h hk
    rw [List.nil_append] at h
    cases hg : (gc.Import s k).1 with
    | error err =>
      rw [importLoop_cons_error gc s k post t err hg] at h
      cases h
    | ok p =>
      rw [importLoop_cons_ok gc s k post t p hg] at h
      refine ⟨p, hg, ?_⟩
      rw [importLoop_get_of_not_mem gc post _ _ t' h k hk, GoMap.get?_set, if_pos rfl]
  | cons x pre ih =>
    intro s t t' k post h hk
    rw [List.cons_append] at h
    cases hg : (gc.Import s x).1 with
    | error err =>
      rw [importLoop_cons_error gc s x _ t err hg] at h
      cases h
    | ok p =>
      rw [importLoop_cons_ok gc s x _ t p hg] at h
      exact ih _ _ t' k post h hk

/-- The calls of a successful import loop: one `gc.Import` for each path visited, in order. -/
theorem importLoop_trace (gc : Importer St Pkg) :
    ∀ (ks : List String) (s : St) (t t' : GoMap Pkg), (importLoop gc s ks t).1 = .ok t' →
      (importLoop gc s ks t).2 = ks.map Event.gcImport := by
  intro ks
  induction ks with
  | nil => intro s t t' _; rfl
  | cons path rest ih =>
    intro s t t' h
    cases hg : (gc.Import s path).1 with
    | error err =>
      rw [importLoop_cons_error gc s path rest t err hg] at h
      cases h
    | ok p =>
      rw [importLoop_cons_ok gc s path rest t p hg] at h ⊢
      simp only [List.map_cons]
      rw [ih _ _ t' h]

/-- The import loop makes `gc.Import` calls only. -/
theorem importLoop_events (gc : Importer St Pkg) :
    ∀ (ks : List String) (s : St) (t : GoMap Pkg), ∀ ev ∈ (importLoop gc s ks t).2,
      ∃ k, ev = Event.gcImport k := by
  intro ks
  induction ks with
  | nil => intro s t ev h; cases h
  | cons path rest ih =>
    intro s t ev h
    cases hg : (gc.Import s path).1 with
    | error err =>
      rw [importLoop_cons_error gc s path rest t err hg] at h
      exact ⟨path, List.mem_singleton.1 h⟩
    | ok p =>
      rw [importLoop_cons_ok gc s path rest t p hg] at h
      rcases List.mem_cons.1 h with h | h
      · exact ⟨path, h⟩
      · exact ih _ _ ev h

/-- The import loop stops with the error of the first call that fails: when the importer returned
a package for every path visited before `k` and returns an error for `k`, the loop returns the
"failed to gc import" error for `k`. -/
theorem importLoop_first_error (gc : Importer St Pkg) (k err : String) (post : List String) :
    ∀ (pre : List String) (s : St) (t : GoMap Pkg),
      (∀ pre₁ x post₁, pre = pre₁ ++ x :: post₁ →
        ∃ p, (gc.Import (stateAfter gc s pre₁) x).1 = .ok p) →
      (gc.Import (stateAfter gc s pre) k).1 = .error err →
      (importLoop gc s (pre ++ k :: post) t).1 =
        .error ("failed to gc import " ++ k ++ ": " ++ err) := by
  intro pre
  induction pre with
  | nil =>
    intro s t _ hf
    rw [List.nil_append, importLoop_cons_error gc s k post t err hf]
  | cons x pre ih =>
    intro s t hpre hf
    obtain ⟨p, hp⟩ := hpre [] x pre rfl
    rw [List.cons_append, importLoop_cons_ok gc s x _ t p hp]
    refine ih _ _ (fun pre₁ y post₁ h => ?_) hf
    exact hpre (x :: pre₁) y post₁ (by rw [h]; rfl)

/-- A failed import loop failed at one of its calls: the importer returned a package for the paths
visited before some path `k` and an error for `k`, and the loop returns the "failed to gc import"
error for `k`. -/
theorem importLoop_error_inv (gc : Importer St Pkg) :
    ∀ (ks : List String) (s : St) (t : GoMap Pkg) (e : String),
      (importLoop gc s ks t).1 = .error e →
      ∃ pre k post err, ks = pre ++ k :: post ∧
        (∀ pre₁ x post₁, pre = pre₁ ++ x :: post₁ →
          ∃ p, (gc.Import (stateAfter gc s pre₁) x).1 = .ok p) ∧
        (gc.Import (stateAfter gc s pre) k).1 = .error err ∧
        e = "failed to gc import " ++ k ++ ": " ++ err := by
  intro ks
  induction ks with
  | nil => intro s t e h; cases h
  | cons path rest ih =>
    intro s t e h
    cases hg : (gc.Import s path).1 with
    | error err =>
      rw [importLoop_cons_error gc s path rest t err hg] at h
      cases h
      refine ⟨[], path, rest, err, rfl, ?_, hg, rfl⟩
      intro pre₁ x post₁ h'
      cases pre₁ <;> cases h'
    | ok p =>
      rw [importLoop_cons_ok gc s path rest t p hg] at h
      obtain ⟨pre, k, post, err, hks, hpre, hf, he⟩ := ih _ _ e h
      refine ⟨path :: pre, k, post, err, by rw [hks]; rfl, ?_, hf, he⟩
      intro pre₁ x post₁ h'
      cases pre₁ with
      | nil =>
        cases h'
        exact ⟨p, hg⟩
      | cons y pre₂ =>
        cases h'
        exact hpre pre₂ x post₁ rfl

/-- The import loop fails as soon as, somewhere along the visit, the importer returns an error
for a path in the state the calls for the paths before it leave it in. -/
theorem importLoop_fails (gc : Importer St Pkg) (k err : String) (post : List String) :
    ∀ (pre : List String) (s : St) (t : GoMap Pkg),
      (gc.Import (stateAfter gc s pre) k).1 = .error err →
      ∃ e, (importLoop gc s (pre ++ k :: post) t).1 = .error e := by
  intro pre
  induction pre with
  | nil =>
    intro s t hf
    rw [List.nil_append, importLoop_cons_error gc s k post t err hf]
    exact ⟨_, rfl⟩
  | cons x pre ih =>
    intro s t hf
    rw [List.cons_append]
    cases hg : (gc.Import s x).1 with
    | error e' =>
      rw [importLoop_cons_error gc s x _ t e' hg]
      exact ⟨_, rfl⟩
    | ok p =>
      rw [importLoop_cons_ok gc s x _ t p hg]
      exact ih _ _ hf

/-! ### Importers whose answers do not depend on their state -/

/-- With a stateless importer, a successful import loop decoded every path it visited. -/
theorem importLoop_ok_all (gc : Importer St Pkg) (hs : stateless gc) (s₀ : St) :
    ∀ (ks : List String) (s : St) (t t' : GoMap Pkg), (importLoop gc s ks t).1 = .ok t' →
      ∀ k ∈ ks, ∃ p, (gc.Import s₀ k).1 = .ok p := by
  intro ks
  induction ks with
  | nil => intro s t t' _ k hk; cases hk
  | cons path rest ih =>
    intro s t t' h k hk
    cases hg : (gc.Import s path).1 with
    | error err =>
      rw [importLoop_cons_error gc s path rest t err hg] at h
      cases h
    | ok p =>
      rw [importLoop_cons_ok gc s path rest t p hg] at h
      rcases List.mem_cons.1 hk with rfl | hk
      · exact ⟨p, (hs s₀ s k).trans hg⟩
      · exact ih _ _ t' h k hk

/-- With a stateless importer, the import loop succeeds when every path it visits decodes. -/
theorem importLoop_ok_of_all (gc : Importer St Pkg) (hs : stateless gc) (s₀ : St) :
    ∀ (ks : List String) (s : St) (t : GoMap Pkg),
      (∀ k ∈ ks, ∃ p, (gc.Import s₀ k).1 = .ok p) →
      ∃ t', (importLoop gc s ks t).1 = .ok t' := by
  intro ks
  induction ks with
  | nil => intro s t _; exact ⟨t, rfl⟩
  | cons path rest ih =>
    intro s t h
    obtain ⟨p, hg⟩ := h path (List.mem_cons_self _ _)
    rw [importLoop_cons_ok gc s path rest t p ((hs s s₀ path).trans hg)]
    exact ih _ _ (fun k hk => h k (List.mem_cons_of_mem _ hk))

/-- With a stateless importer, the error of a failed import loop names a visited path that does
not decode, with the error of the decoder. -/
theorem importLoop_error (gc : Importer St Pkg) (hs : stateless gc) (s₀ : St) :
    ∀ (ks : List String) (s : St) (t : GoMap Pkg) (e : String),
      (importLoop gc s ks t).1 = .error e →
      ∃ k ∈ ks, ∃ err, (gc.Import s₀ k).1 = .error err ∧
        e = "failed to gc import " ++ k ++ ": " ++ err := by
  intro ks s t e h
  obtain ⟨pre, k, post, err, hks, _, hf, he⟩ := importLoop_error_inv gc ks s t e h
  refine ⟨k, ?_, err, (hs s₀ _ k).trans hf, he⟩
  rw [hks]
  exact List.mem_append_right _ (List.mem_cons_self _ _)

/-- With a stateless importer, the value a successful import loop stores under a path: what the
decoder returns for it when the path was visited, the value the map had before otherwise. -/
theorem importLoop_get (gc : Importer St Pkg) (hs : stateless gc) (s₀ : St) :
    ∀ (ks : List String) (s : St) (t t' : GoMap Pkg), (importLoop gc s ks t).1 = .ok t' →
      ∀ k, GoMap.get? t' k =
        if k ∈ ks then (gc.Import s₀ k).1.toOption else GoMap.get? t k := by
  intro ks
  induction ks with
  | nil =>
    intro s t t' h k
    rw [importLoop_nil] at h
    cases h
    simp
  | cons path rest ih =>
    intro s t t' h k
    cases hg : (gc.Import s path).1 with
    | error err =>
      rw [importLoop_cons_error gc s path rest t err hg] at h
      cases h
    | ok p =>
      rw [importLoop_cons_ok gc s path rest t p hg] at h
      rw [ih _ _ t' h k, GoMap.get?_set]
      by_cases h1 : k ∈ rest
      · simp [h1]
      · by_cases h2 : k = path
        · subst h2
          simp [h1, (hs s₀ s k).trans hg, Except.toOption]
        · simp [h1, h2]

/-- With a stateless importer, whether the import loop succeeds, and the content of the map it
returns, do not depend on the order in which the paths are visited. -/
theorem importLoop_perm (gc : Importer St Pkg) (hs : stateless gc) (ks₁ ks₂ : List String)
    (hp : ks₁.Perm ks₂) (s : St) (t t₁ : GoMap Pkg) (h : (importLoop gc s ks₁ t).1 = .ok t₁) :
    ∃ t₂, (importLoop gc s ks₂ t).1 = .ok t₂ ∧
      (∀ k, k ∈ GoMap.keys t₁ ↔ k ∈ GoMap.keys t₂) ∧
      ∀ k, GoMap.get? t₁ k = GoMap.get? t₂ k := by
  have hall : ∀ k ∈ ks₂, ∃ p, (gc.Import s k).1 = .ok p :=
    fun k hk => importLoop_ok_all gc hs s ks₁ s t t₁ h k (hp.mem_iff.2 hk)
  obtain ⟨t₂, h₂⟩ := importLoop_ok_of_all gc hs s ks₂ s t hall
  refine ⟨t₂, h₂, fun k => ?_, fun k => ?_⟩
  · rw [importLoop_keys gc ks₁ s t t₁ h k, importLoop_keys gc ks₂ s t t₂ h₂ k, hp.mem_iff]
  · rw [importLoop_get gc hs s ks₁ s t t₁ h k, importLoop_get gc hs s ks₂ s t t₂ h₂ k]
    by_cases hk : k ∈ ks₁
    · rw [if_pos hk, if_pos (hp.mem_iff.1 hk)]
    · rw [if_neg hk, if_neg (fun h' => hk (hp.mem_iff.2 h'))]

end ImportLoop

/-! ## The four ways through `newImpl` -/

section NewImpl

variable {File Pkg Ctxt FSet Imp St : Type}

theorem newImpl_exec_error (W : World File Pkg Ctxt FSet Imp St) (ro : RangeOrder) (ctxt : Ctxt)
    (fset : FSet) (path dir : String) (install : Bool) (out err : String)
    (h : W.combinedOutput "go" (listArgs path) dir = (out, some err)) :
    newImpl W ro ctxt fset path dir install =
      (.error ("failed to start list for " ++ path ++ " in " ++ dir ++ ": " ++ err ++ "\n" ++ out),
        [.exec "go" (listArgs path) dir]) := by
  simp only [newImpl, h]

theorem newImpl_decode_error (W : World File Pkg Ctxt FSet Imp St) (ro : RangeOrder) (ctxt : Ctxt)
    (fset : FSet) (path dir : String) (install : Bool) (out e : String)
    (h : W.combinedOutput "go" (listArgs path) dir = (out, none))
    (hd : (decodeLoop W path dir (W.jsonDecode out) GoMap.empty).1 = .error e) :
    newImpl W ro ctxt fset path dir install =
      (.error e, .exec "go" (listArgs path) dir ::
        (decodeLoop W path dir (W.jsonDecode out) GoMap.empty).2) := by
  have hp : decodeLoop W path dir (W.jsonDecode out) GoMap.empty =
      (.error e, (decodeLoop W path dir (W.jsonDecode out) GoMap.empty).2) := Prod.ext hd rfl
  unfold newImpl
  simp only [h]
  rw [hp]

theorem newImpl_import_error (W : World File Pkg Ctxt FSet Imp St) (ro : RangeOrder) (ctxt : Ctxt)
    (fset : FSet) (path dir : String) (install : Bool) (out e : String) (lookups : GoMap File)
    (h : W.combinedOutput "go" (listArgs path) dir = (out, none))
    (hd : (decodeLoop W path dir (W.jsonDecode out) GoMap.empty).1 = .ok lookups)
    (hi : (importAll W ro lookups).1 = .error e) :
    newImpl W ro ctxt fset path dir install =
      (.error e, .exec "go" (listArgs path) dir ::
        ((decodeLoop W path dir (W.jsonDecode out) GoMap.empty).2 ++
          (importAll W ro lookups).2)) := by
  have hp : decodeLoop W path dir (W.jsonDecode out) GoMap.empty =
      (.ok lookups, (decodeLoop W path dir (W.jsonDecode out) GoMap.empty).2) := Prod.ext hd rfl
  have hq : importAll W ro lookups = (.error e, (importAll W ro lookups).2) := Prod.ext hi rfl
  unfold newImpl
  simp only [h]
  rw [hp]
  simp only []
  rw [hq]

theorem newImpl_ok (W : World File Pkg Ctxt FSet Imp St) (ro : RangeOrder) (ctxt : Ctxt)
    (fset : FSet) (path dir : String) (install : Bool) (out : String) (lookups : GoMap File)
    (tpkgs : GoMap Pkg)
    (h : W.combinedOutput "go" (listArgs path) dir = (out, none))
    (hd : (decodeLoop W path dir (W.jsonDecode out) GoMap.empty).1 = .ok lookups)
    (hi : (importAll W ro lookups).1 = .ok tpkgs) :
    newImpl W ro ctxt fset path dir install =
      (.ok (W.srcimporterNew ctxt fset tpkgs install), .exec "go" (listArgs path) dir ::
        ((decodeLoop W path dir (W.jsonDecode out) GoMap.empty).2 ++
          (importAll W ro lookups).2)) := by
  have hp : decodeLoop W path dir (W.jsonDecode out) GoMap.empty =
      (.ok lookups, (decodeLoop W path dir (W.jsonDecode out) GoMap.empty).2) := Prod.ext hd rfl
  have hq : importAll W ro lookups = (.ok tpkgs, (importAll W ro lookups).2) := Prod.ext hi rfl
  unfold newImpl
  simp only [h]
  rw [hp]
  simp only []
  rw [hq]

/-- The import loop of `newImpl`, as a loop on the importer of line 83. -/
theorem importAll_eq (W : World File Pkg Ctxt FSet Imp St) (ro : RangeOrder)
    (lookups : GoMap File) :
    importAll W ro lookups =
      importLoop (gcOf W lookups) (gcOf W lookups).init (ro.visit (GoMap.keys lookups))
        GoMap.empty := rfl

/-- The metadata stream of a session whose query produced `out`. -/
theorem metadata_eq (W : World File Pkg Ctxt FSet Imp St) (path dir out : String)
    (e : Option String) (h : W.combinedOutput "go" (listArgs path) dir = (out, e)) :
    metadata W path dir = W.jsonDecode out := by
  simp only [metadata, h]

/-- Every run of `newImpl` takes one of four ways: the query fails, the decode loop fails,
the import loop fails, or a resolver is returned. -/
theorem newImpl_cases (W : World File Pkg Ctxt FSet Imp St) (ro : RangeOrder) (ctxt : Ctxt)
    (fset : FSet) (path dir : String) (install : Bool) :
    (∃ out err, W.combinedOutput "go" (listArgs path) dir = (out, some err) ∧
      newImpl W ro ctxt fset path dir install =
        (.error ("failed to start list for " ++ path ++ " in " ++ dir ++ ": " ++ err ++ "\n"
          ++ out), [.exec "go" (listArgs path) dir])) ∨
    (∃ e, (W.combinedOutput "go" (listArgs path) dir).2 = none ∧
      (decodeLoop W path dir (metadata W path dir) GoMap.empty).1 = .error e ∧
      newImpl W ro ctxt fset path dir install =
        (.error e, .exec "go" (listArgs path) dir ::
          (decodeLoop W path dir (metadata W path dir) GoMap.empty).2)) ∨
    (∃ lookups e, (W.combinedOutput "go" (listArgs path) dir).2 = none ∧
      (decodeLoop W path dir (metadata W path dir) GoMap.empty).1 = .ok lookups ∧
      (importAll W ro lookups).1 = .error e ∧
      newImpl W ro ctxt fset path dir install =
        (.error e, .exec "go" (listArgs path) dir ::
          ((decodeLoop W path dir (metadata W path dir) GoMap.empty).2 ++
            (importAll W ro lookups).2))) ∨
    (∃ lookups tpkgs, (W.combinedOutput "go" (listArgs path) dir).2 = none ∧
      (decodeLoop W path dir (metadata W path dir) GoMap.empty).1 = .ok lookups ∧
      (importAll W ro lookups).1 = .ok tpkgs ∧
      newImpl W ro ctxt fset path dir install =
        (.ok (W.srcimporterNew ctxt fset tpkgs install), .exec "go" (listArgs path) dir ::
          ((decodeLoop W path dir (metadata W path dir) GoMap.empty).2 ++
            (importAll W ro lookups).2))) := by
  rcases hc : W.combinedOutput "go" (listArgs path) dir with ⟨out, _ | err⟩
  · have hm := metadata_eq W path dir out none hc
    rw [hm]
    cases hd : (decodeLoop W path dir (W.jsonDecode out) GoMap.empty).1 with
    | error e =>
      exact Or.inr (Or.inl ⟨e, rfl, rfl,
        newImpl_decode_error W ro ctxt fset path dir install out e hc hd⟩)
    | ok lookups =>
      cases hi : (importAll W ro lookups).1 with
      | error e =>
        exact Or.inr (Or.inr (Or.inl ⟨lookups, e, rfl, rfl, hi,
          newImpl_import_error W ro ctxt fset path dir install out e lookups hc hd hi⟩))
      | ok tpkgs =>
        exact Or.inr (Or.inr (Or.inr ⟨lookups, tpkgs, rfl, rfl, hi,
          newImpl_ok W ro ctxt fset path dir install out lookups tpkgs hc hd hi⟩))
  · exact Or.inl ⟨out, err, rfl, newImpl_exec_error W ro ctxt fset path dir install out err hc⟩

/-- A successful `newImpl`, in terms of the metadata stream of the session, with the calls it
made. -/
theorem newImpl_ok_run (W : World File Pkg Ctxt FSet Imp St) (ro : RangeOrder) (ctxt : Ctxt)
    (fset : FSet) (path dir : String) (install : Bool) (imp : Imp)
    (h : (newImpl W ro ctxt fset path dir install).1 = .ok imp) :
    ∃ lookups tpkgs,
      (W.combinedOutput "go" (listArgs path) dir).2 = none ∧
      (decodeLoop W path dir (metadata W path dir) GoMap.empty).1 = .ok lookups ∧
      (importAll W ro lookups).1 = .ok tpkgs ∧
      imp = W.srcimporterNew ctxt fset tpkgs install ∧
      (newImpl W ro ctxt fset path dir install).2 =
        .exec "go" (listArgs path) dir ::
          ((decodeLoop W path dir (metadata W path dir) GoMap.empty).2 ++
            (ro.visit (GoMap.keys lookups)).map Event.gcImport) := by
  rcases newImpl_cases W ro ctxt fset path dir install with
    ⟨out, e, _, hrun⟩ | ⟨e, _, hd, hrun⟩ | ⟨lookups, e, _, hd, _, hrun⟩ |
    ⟨lookups, tpkgs, hq, hd, hi, hrun⟩
  · rw [hrun] at h; cases h
  · rw [hrun] at h; cases h
  · rw [hrun] at h; cases h
  · rw [hrun] at h ⊢
    refine ⟨lookups, tpkgs, hq, hd, hi, (Except.ok.inj h).symm, ?_⟩
    simp only []
    rw [importAll_eq, importLoop_trace _ _ _ _ _ (by rw [← importAll_eq]; exact hi)]

/-- The equation of `newImpl` once the query succeeded and the decode loop built a table. -/
theorem newImpl_of_lookups (W : World File Pkg Ctxt FSet Imp St) (ro : RangeOrder) (ctxt : Ctxt)
    (fset : FSet) (path dir : String) (install : Bool) (lookups : GoMap File)
    (hq : (W.combinedOutput "go" (listArgs path) dir).2 = none)
    (hd : (decodeLoop W path dir (metadata W path dir) GoMap.empty).1 = .ok lookups) :
    (newImpl W ro ctxt fset path dir install).1 =
      Except.map (fun t => W.srcimporterNew ctxt fset t install) (importAll W ro lookups).1 := by
  have hc : W.combinedOutput "go" (listArgs path) dir =
      ((W.combinedOutput "go" (listArgs path) dir).1, none) := Prod.ext rfl hq
  cases hi : (importAll W ro lookups).1 with
  | error e =>
    rw [newImpl_import_error W ro ctxt fset path dir install _ e lookups hc hd hi]
    rfl
  | ok tpkgs =>
    rw [newImpl_ok W ro ctxt fset path dir install _ lookups tpkgs hc hd hi]
    rfl

/-- The equation of `newImpl` when the decode loop fails. -/
theorem newImpl_of_decode_error (W : World File Pkg Ctxt FSet Imp St) (ro : RangeOrder)
    (ctxt : Ctxt) (fset : FSet) (path dir : String) (install : Bool) (e : String)
    (hq : (W.combinedOutput "go" (listArgs path) dir).2 = none)
    (hd : (decodeLoop W path dir (metadata W path dir) GoMap.empty).1 = .error e) :
    newImpl W ro ctxt fset path dir install =
      (.error e, .exec "go" (listArgs path) dir ::
        (decodeLoop W path dir (metadata W path dir) GoMap.empty).2) := by
  have hc : W.combinedOutput "go" (listArgs path) dir =
      ((W.combinedOutput "go" (listArgs path) dir).1, none) := Prod.ext rfl hq
  exact newImpl_decode_error W ro ctxt fset path dir install _ e hc hd

/-- Two runs of `newImpl` that differ in the order of the import loop only: either they agree
in everything, or both reach the import loop with the same lookup table. -/
theorem newImpl_two_orders (W : World File Pkg Ctxt FSet Imp St) (ro₁ ro₂ : RangeOrder)
    (ctxt : Ctxt) (fset : FSet) (path dir : String) (install : Bool) :
    newImpl W ro₁ ctxt fset path dir install = newImpl W ro₂ ctxt fset path dir install ∨
    ∃ lookups,
      (W.combinedOutput "go" (listArgs path) dir).2 = none ∧
      (decodeLoop W path dir (metadata W path dir) GoMap.empty).1 = .ok lookups := by
  rcases newImpl_cases W ro₁ ctxt fset path dir install with
    ⟨out, e, hc, hrun⟩ | ⟨e, hq, hd, hrun⟩ | ⟨lookups, e, hq, hd, _, _⟩ |
    ⟨lookups, tpkgs, hq, hd, _, _⟩
  · left
    rw [hrun, newImpl_exec_error W ro₂ ctxt fset path dir install out e hc]
  · left
    rw [hrun, newImpl_of_decode_error W ro₂ ctxt fset path dir install e hq hd]
  · exact Or.inr ⟨lookups, hq, hd⟩
  · exact Or.inr ⟨lookups, hq, hd⟩

/-- With a stateless importer, a run of `newImpl` that succeeds with one order of the import loop
succeeds with every other order, and hands the resolver a map with the same keys and the same
values. -/
theorem newImpl_ok_any_order (W : World File Pkg Ctxt FSet Imp St) (ro₁ ro₂ : RangeOrder)
    (ctxt : Ctxt) (fset : FSet) (path dir : String) (install : Bool) (imp₁ : Imp)
    (hs : ∀ lookups, (decodeLoop W path dir (metadata W path dir) GoMap.empty).1 = .ok lookups →
      stateless (gcOf W lookups))
    (h : (newImpl W ro₁ ctxt fset path dir install).1 = .ok imp₁) :
    ∃ lookups t₁ t₂,
      (decodeLoop W path dir (metadata W path dir) GoMap.empty).1 = .ok lookups ∧
      (importAll W ro₁ lookups).1 = .ok t₁ ∧
      (importAll W ro₂ lookups).1 = .ok t₂ ∧
      imp₁ = W.srcimporterNew ctxt fset t₁ install ∧
      (newImpl W ro₂ ctxt fset path dir install).1 =
        .ok (W.srcimporterNew ctxt fset t₂ install) ∧
      (∀ k, k ∈ GoMap.keys t₁ ↔ k ∈ GoMap.keys t₂) ∧
      ∀ k, GoMap.get? t₁ k = GoMap.get? t₂ k := by
  obtain ⟨lookups, t₁, hq, hd, hi, himp, _⟩ :=
    newImpl_ok_run W ro₁ ctxt fset path dir install imp₁ h
  have hperm : (ro₁.visit (GoMap.keys lookups)).Perm (ro₂.visit (GoMap.keys lookups)) :=
    (ro₁.perm _).trans (ro₂.perm _).symm
  rw [importAll_eq] at hi
  obtain ⟨t₂, hi₂, hkeys, hget⟩ :=
    importLoop_perm _ (hs lookups hd) _ _ hperm _ GoMap.empty t₁ hi
  rw [← importAll_eq] at hi hi₂
  refine ⟨lookups, t₁, t₂, hd, hi, hi₂, himp, ?_, hkeys, hget⟩
  rw [newImpl_of_lookups W ro₂ ctxt fset path dir install lookups hq hd, hi₂]
  rfl

end NewImpl

/-! ## The claims -/

section Claims

variable {File Pkg Ctxt FSet Imp St : Type}

/-- C1: when the decode loop of `newImpl` reaches the end of the metadata stream without a parse
or open error, the keys of the lookup table are exactly the import paths of the binary-usable
records of the stream: a path is a key iff some record with that `ImportPath` is
binary-usable (and no key occurs twice). -/
theorem lookups_keys_are_binaryUsable_paths (W : World File Pkg Ctxt FSet Imp St)
    (path dir : String) (stream : List (Except String pkgInfo)) (lookups : GoMap File)
    (h : (decodeLoop W path dir stream GoMap.empty).1 = .ok lookups) :
    (∀ k, k ∈ GoMap.keys lookups ↔
      ∃ p, Except.ok p ∈ stream ∧ p.ImportPath = k ∧ binaryUsable p) ∧
    (GoMap.keys lookups).Nodup := by
  refine ⟨fun k => ?_, ?_⟩
  · rw [decodeLoop_keys W path dir stream GoMap.empty lookups h k]
    simp [GoMap.keys_empty]
  · exact decodeLoop_nodup W path dir stream GoMap.empty lookups h (by simp [GoMap.keys_empty])

/-- C2: when `newImpl` returns a resolver (for either value of `install`, so for `New` and for
`NewInstaller`), the map of packages handed to `srcimporter.New` has exactly the keys of the
lookup table, that is the paths of the binary-usable records, each once; every one of them was
passed to `gc.Import` during construction, and the value stored under a path is the package
`gc.Import` returned for it, in the state the importer was in when the loop came to that
path. -/
theorem tpkgs_decoded_eagerly (W : World File Pkg Ctxt FSet Imp St) (ro : RangeOrder)
    (ctxt : Ctxt) (fset : FSet) (path dir : String) (install : Bool) (imp : Imp)
    (h : (newImpl W ro ctxt fset path dir install).1 = .ok imp) :
    ∃ lookups tpkgs,
      (decodeLoop W path dir (metadata W path dir) GoMap.empty).1 = .ok lookups ∧
      imp = W.srcimporterNew ctxt fset tpkgs install ∧
      (∀ k, k ∈ GoMap.keys tpkgs ↔ k ∈ GoMap.keys lookups) ∧
      (∀ k, k ∈ GoMap.keys tpkgs ↔
        ∃ p, Except.ok p ∈ metadata W path dir ∧ p.ImportPath = k ∧ binaryUsable p) ∧
      (GoMap.keys tpkgs).Nodup ∧
      ∀ k ∈ GoMap.keys lookups,
        Event.gcImport k ∈ (newImpl W ro ctxt fset path dir install).2 ∧
        ∃ pre post p, ro.visit (GoMap.keys lookups) = pre ++ k :: post ∧
          gcAnswer W lookups pre k = .ok p ∧ GoMap.get? tpkgs k = some p := by
  obtain ⟨lookups, tpkgs, _, hd, hi, himp, htr⟩ :=
    newImpl_ok_run W ro ctxt fset path dir install imp h
  rw [importAll_eq] at hi
  have hperm : ∀ k, k ∈ ro.visit (GoMap.keys lookups) ↔ k ∈ GoMap.keys lookups :=
    fun k => (ro.perm (GoMap.keys lookups)).mem_iff
  have hkeys : ∀ k, k ∈ GoMap.keys tpkgs ↔ k ∈ GoMap.keys lookups := by
    intro k
    rw [importLoop_keys _ _ _ _ _ hi k, hperm]
    simp [GoMap.keys_empty]
  have hnd : (ro.visit (GoMap.keys lookups)).Nodup :=
    (ro.perm _).nodup_iff.2
      (decodeLoop_nodup W path dir _ GoMap.empty lookups hd (by simp [GoMap.keys_empty]))
  refine ⟨lookups, tpkgs, hd, himp, hkeys, fun k => ?_, ?_, fun k hk => ⟨?_, ?_⟩⟩
  · rw [hkeys k, decodeLoop_keys W path dir _ GoMap.empty lookups hd k]
    simp [GoMap.keys_empty]
  · exact importLoop_nodup _ _ _ _ _ hi (by simp [GoMap.keys_empty])
  · rw [htr]
    exact List.mem_cons_of_mem _ (List.mem_append_right _
      (List.mem_map_of_mem _ ((hperm k).2 hk)))
  · obtain ⟨pre, post, hv⟩ := List.append_of_mem ((hperm k).2 hk)
    rw [hv] at hnd hi
    have hk' : k ∉ post := (List.nodup_cons.1 (List.nodup_append.1 hnd).2.1).1
    obtain ⟨p, hp, hget⟩ := importLoop_get_at _ pre _ _ tpkgs k post hi hk'
    exact ⟨pre, post, p, hv, hp, hget⟩

/-- C3: when construction succeeds on a metadata stream whose import paths are unique (the
uniqueness invariant of the data model), the import path of every record with `Stale == true`
is a key neither of the lookup table nor of the map of packages handed to the resolver. -/
theorem stale_absent_from_binary_map (W : World File Pkg Ctxt FSet Imp St) (ro : RangeOrder)
    (ctxt : Ctxt) (fset : FSet) (path dir : String) (install : Bool) (imp : Imp)
    (h : (newImpl W ro ctxt fset path dir install).1 = .ok imp)
    (hu : uniquePaths (metadata W path dir))
    (r : pkgInfo) (hr : Except.ok r ∈ metadata W path dir) (hs : r.Stale = true) :
    ∃ lookups tpkgs,
      (decodeLoop W path dir (metadata W path dir) GoMap.empty).1 = .ok lookups ∧
      (importAll W ro lookups).1 = .ok tpkgs ∧
      imp = W.srcimporterNew ctxt fset tpkgs install ∧
      r.ImportPath ∉ GoMap.keys lookups ∧ r.ImportPath ∉ GoMap.keys tpkgs := by
  obtain ⟨lookups, tpkgs, _, hd, hi, himp, _⟩ :=
    newImpl_ok_run W ro ctxt fset path dir install imp h
  have hn : ¬ binaryUsable r := fun hb => by
    have := hb.2.2
    rw [hs] at this
    cases this
  have habs := decodeLoop_absent W path dir _ lookups hd hu r hr hn
  refine ⟨lookups, tpkgs, hd, hi, himp, habs, fun hk => habs ?_⟩
  rw [importAll_eq] at hi
  rcases (importLoop_keys _ _ _ _ _ hi r.ImportPath).1 hk with h1 | h1
  · simp [GoMap.keys_empty] at h1
  · exact (ro.perm (GoMap.keys lookups)).mem_iff.1 h1

/-- C4: when construction succeeds on a metadata stream whose import paths are unique (the
uniqueness invariant of the data model), the import path of every record that is special
(`ImportPath` "unsafe") or executable (`Name` "main") is a key neither of the lookup table nor
of the map of packages handed to the resolver, and `os.Open` is not called for that record. -/
theorem special_executable_absent (W : World File Pkg Ctxt FSet Imp St) (ro : RangeOrder)
    (ctxt : Ctxt) (fset : FSet) (path dir : String) (install : Bool) (imp : Imp)
    (h : (newImpl W ro ctxt fset path dir install).1 = .ok imp)
    (hu : uniquePaths (metadata W path dir))
    (r : pkgInfo) (hr : Except.ok r ∈ metadata W path dir)
    (hk : r.ImportPath = "unsafe" ∨ r.Name = "main") :
    ∃ lookups tpkgs,
      (decodeLoop W path dir (metadata W path dir) GoMap.empty).1 = .ok lookups ∧
      (importAll W ro lookups).1 = .ok tpkgs ∧
      imp = W.srcimporterNew ctxt fset tpkgs install ∧
      r.ImportPath ∉ GoMap.keys lookups ∧ r.ImportPath ∉ GoMap.keys tpkgs ∧
      Event.osOpen r ∉ (newImpl W ro ctxt fset path dir install).2 := by
  obtain ⟨lookups, tpkgs, _, hd, hi, himp, htr⟩ :=
    newImpl_ok_run W ro ctxt fset path dir install imp h
  have hn : ¬ binaryUsable r := fun hb => by
    rcases hk with hk | hk
    · exact hb.1 hk
    · exact hb.2.1 hk
  have habs := decodeLoop_absent W path dir _ lookups hd hu r hr hn
  refine ⟨lookups, tpkgs, hd, hi, himp, habs, fun hk => habs ?_, fun ho => ?_⟩
  · rw [importAll_eq] at hi
    rcases (importLoop_keys _ _ _ _ _ hi r.ImportPath).1 hk with h1 | h1
    · simp [GoMap.keys_empty] at h1
    · exact (ro.perm (GoMap.keys lookups)).mem_iff.1 h1
  · rw [htr] at ho
    simp only [List.mem_cons, reduceCtorEq, false_or, List.mem_append, List.mem_map,
      and_false, exists_false, or_false] at ho
    exact hn (decodeLoop_osOpen W path dir r _ _ ho).2

/-- C5, as amended: when the query succeeded and its metadata stream contains a binary-usable
record (not "unsafe", not "main", not stale) whose artifact `Target` cannot be opened,
construction fails and returns no resolver; when moreover the stream decodes up to that record
and the artifact of every binary-usable record before it opens, the error is the "failed to
open" error naming the `Target` of that record, and the import loop is never entered. -/
theorem unopenable_binaryUsable_fails (W : World File Pkg Ctxt FSet Imp St) (ro : RangeOrder)
    (ctxt : Ctxt) (fset : FSet) (path dir : String) (install : Bool)
    (r : pkgInfo) (err : String)
    (hq : (W.combinedOutput "go" (listArgs path) dir).2 = none)
    (hr : Except.ok r ∈ metadata W path dir) (hu : binaryUsable r)
    (ho : W.osOpen r.Target = .error err) :
    (∃ e, (newImpl W ro ctxt fset path dir install).1 = .error e) ∧
    ∀ pre post, metadata W path dir = pre ++ .ok r :: post →
      (∀ x ∈ pre, ∃ p, x = Except.ok p ∧
        (binaryUsable p → ∃ fi, W.osOpen p.Target = .ok fi)) →
      (newImpl W ro ctxt fset path dir install).1 =
        .error ("failed to open " ++ r.Target ++ ": " ++ err) ∧
      ∀ k, Event.gcImport k ∉ (newImpl W ro ctxt fset path dir install).2 := by
  constructor
  · cases hres : (newImpl W ro ctxt fset path dir install).1 with
    | error e => exact ⟨e, rfl⟩
    | ok imp =>
      obtain ⟨lookups, tpkgs, _, hd, _⟩ :=
        newImpl_ok_run W ro ctxt fset path dir install imp hres
      obtain ⟨fi, hfi⟩ := decodeLoop_ok_opened W path dir _ _ lookups hd r hr hu
      rw [ho] at hfi
      cases hfi
  · intro pre post hs hpre
    have hd : (decodeLoop W path dir (metadata W path dir) GoMap.empty).1 =
        .error ("failed to open " ++ r.Target ++ ": " ++ err) := by
      rw [hs]
      exact decodeLoop_first_open_error W path dir r err post hu ho pre GoMap.empty hpre
    rw [newImpl_of_decode_error W ro ctxt fset path dir install _ hq hd]
    refine ⟨rfl, fun k hk => ?_⟩
    simp only [List.mem_cons, reduceCtorEq, false_or] at hk
    exact decodeLoop_no_gcImport W path dir k _ _ hk

/-- C6, as amended: when the query succeeded and decoding some record of its metadata stream
yields an error other than `io.EOF`, construction fails and returns no resolver, and nothing is
built from the records decoded before: no `gc.Import` call is made; when moreover the records
before the malformed one decode and the artifact of every binary-usable record among them
opens, the error is the "failed to parse list" error carrying the target path, the working
directory and the error of the decoder. -/
theorem malformed_stream_fails (W : World File Pkg Ctxt FSet Imp St) (ro : RangeOrder)
    (ctxt : Ctxt) (fset : FSet) (path dir : String) (install : Bool) (err : String)
    (hq : (W.combinedOutput "go" (listArgs path) dir).2 = none)
    (hm : Except.error err ∈ metadata W path dir) :
    (∃ e, (newImpl W ro ctxt fset path dir install).1 = .error e) ∧
    (∀ k, Event.gcImport k ∉ (newImpl W ro ctxt fset path dir install).2) ∧
    ∀ pre post, metadata W path dir = pre ++ .error err :: post →
      (∀ x ∈ pre, ∃ p, x = Except.ok p ∧
        (binaryUsable p → ∃ fi, W.osOpen p.Target = .ok fi)) →
      (newImpl W ro ctxt fset path dir install).1 =
        .error ("failed to parse list for " ++ path ++ " in " ++ dir ++ ": " ++ err) := by
  obtain ⟨e, hd⟩ := decodeLoop_fails_of_failure W path dir err _ GoMap.empty hm
  have hrun := newImpl_of_decode_error W ro ctxt fset path dir install e hq hd
  refine ⟨⟨e, by rw [hrun]⟩, fun k hk => ?_, fun pre post hs hpre => ?_⟩
  · rw [hrun] at hk
    simp only [List.mem_cons, reduceCtorEq, false_or] at hk
    exact decodeLoop_no_gcImport W path dir k _ _ hk
  · have hev := decodeLoop_reaches_failure W path dir err post pre GoMap.empty hpre
    rw [← hs] at hev
    have hres := decodeLoop_decode_failure W path dir err _ _ hev
    rw [hd] at hres
    rw [hrun, Except.error.inj hres]

/-- C7, as amended: when the query succeeded, the decode loop built the lookup table and,
somewhere along the order in which the import loop visits the table, `gc.Import` returns an
error for an import path in the state the calls for the paths visited before have left the
importer in, `newImpl` returns no resolver but a "failed to gc import" error naming an import
path of the table for which `gc.Import` returned an error in that way, with that error; it names
the given path, with its error, when `gc.Import` returned a package for every path visited
before it. -/
theorem failing_import_call_fails (W : World File Pkg Ctxt FSet Imp St) (ro : RangeOrder)
    (ctxt : Ctxt) (fset : FSet) (path dir : String) (install : Bool)
    (lookups : GoMap File) (pre : List String) (k : String) (post : List String) (err : String)
    (hq : (W.combinedOutput "go" (listArgs path) dir).2 = none)
    (hd : (decodeLoop W path dir (metadata W path dir) GoMap.empty).1 = .ok lookups)
    (hv : ro.visit (GoMap.keys lookups) = pre ++ k :: post)
    (hf : gcAnswer W lookups pre k = .error err) :
    (∃ pre' k' post' err', ro.visit (GoMap.keys lookups) = pre' ++ k' :: post' ∧
      k' ∈ GoMap.keys lookups ∧
      (∀ pre₁ x post₁, pre' = pre₁ ++ x :: post₁ → ∃ p, gcAnswer W lookups pre₁ x = .ok p) ∧
      gcAnswer W lookups pre' k' = .error err' ∧
      (newImpl W ro ctxt fset path dir install).1 =
        .error ("failed to gc import " ++ k' ++ ": " ++ err')) ∧
    ((∀ pre₁ x post₁, pre = pre₁ ++ x :: post₁ → ∃ p, gcAnswer W lookups pre₁ x = .ok p) →
      (newImpl W ro ctxt fset path dir install).1 =
        .error ("failed to gc import " ++ k ++ ": " ++ err)) := by
  have hrun := newImpl_of_lookups W ro ctxt fset path dir install lookups hq hd
  rw [importAll_eq] at hrun
  constructor
  · obtain ⟨e, he⟩ := importLoop_fails (gcOf W lookups) k err post pre (gcOf W lookups).init
      GoMap.empty hf
    rw [← hv] at he
    obtain ⟨pre', k', post', err', hks, hpre', hf', hmsg⟩ :=
      importLoop_error_inv _ _ _ _ e he
    refine ⟨pre', k', post', err', hks, ?_, hpre', hf', ?_⟩
    · refine (ro.perm _).mem_iff.1 ?_
      rw [hks]
      exact List.mem_append_right _ (List.mem_cons_self _ _)
    · rw [hrun, he, hmsg]
      rfl
  · intro hpre
    have he := importLoop_first_error (gcOf W lookups) k err post pre (gcOf W lookups).init
      GoMap.empty hpre hf
    rw [← hv] at he
    rw [hrun, he]
    rfl

/-- C8: when the query process returns an error, `newImpl` returns no resolver but the "failed to
start list" error made of the target path, the working directory, the error of the process and
the whole combined output; the query is the only external call: no record is decoded, no file
is opened and nothing is handed to the gc importer. -/
theorem query_failure_fails (W : World File Pkg Ctxt FSet Imp St) (ro : RangeOrder)
    (ctxt : Ctxt) (fset : FSet) (path dir : String) (install : Bool) (out err : String)
    (hq : W.combinedOutput "go" (listArgs path) dir = (out, some err)) :
    (newImpl W ro ctxt fset path dir install).1 =
      .error ("failed to start list for " ++ path ++ " in " ++ dir ++ ": " ++ err ++ "\n"
        ++ out) ∧
    (newImpl W ro ctxt fset path dir install).2 = [.exec "go" (listArgs path) dir] ∧
    (∀ r, Event.decode r ∉ (newImpl W ro ctxt fset path dir install).2) ∧
    (∀ p, Event.osOpen p ∉ (newImpl W ro ctxt fset path dir install).2) ∧
    (∀ k, Event.gcImport k ∉ (newImpl W ro ctxt fset path dir install).2) := by
  rw [newImpl_exec_error W ro ctxt fset path dir install out err hq]
  refine ⟨rfl, rfl, ?_, ?_, ?_⟩ <;> intro x hx <;> simp at hx

/-- C9, as amended: for a fixed lookup table and a fixed decoder whose answer for an import path
does not depend on the import paths decoded before it, whether `newImpl` fails does not depend
on the order in which the import loop visits the entries of the table; when it succeeds, the
maps handed to the resolver have the same keys and the same package under every key for every
order; when it fails, the errors returned for two orders are the same unless two different
paths of the table both fail to decode, in which case each error is the
"failed to gc import" error of one of them. -/
theorem result_across_visit_orders (W : World File Pkg Ctxt FSet Imp St) (ro₁ ro₂ : RangeOrder)
    (ctxt : Ctxt) (fset : FSet) (path dir : String) (install : Bool)
    (hs : ∀ lookups, (decodeLoop W path dir (metadata W path dir) GoMap.empty).1 = .ok lookups →
      stateless (gcOf W lookups)) :
    ((∃ e, (newImpl W ro₁ ctxt fset path dir install).1 = .error e) ↔
      (∃ e, (newImpl W ro₂ ctxt fset path dir install).1 = .error e)) ∧
    (∀ imp₁ imp₂, (newImpl W ro₁ ctxt fset path dir install).1 = .ok imp₁ →
      (newImpl W ro₂ ctxt fset path dir install).1 = .ok imp₂ →
      ∃ lookups t₁ t₂,
        (decodeLoop W path dir (metadata W path dir) GoMap.empty).1 = .ok lookups ∧
        (importAll W ro₁ lookups).1 = .ok t₁ ∧
        (importAll W ro₂ lookups).1 = .ok t₂ ∧
        imp₁ = W.srcimporterNew ctxt fset t₁ install ∧
        imp₂ = W.srcimporterNew ctxt fset t₂ install ∧
        (∀ k, k ∈ GoMap.keys t₁ ↔ k ∈ GoMap.keys t₂) ∧
        ∀ k, GoMap.get? t₁ k = GoMap.get? t₂ k) ∧
    (∀ e₁ e₂, (newImpl W ro₁ ctxt fset path dir install).1 = .error e₁ →
      (newImpl W ro₂ ctxt fset path dir install).1 = .error e₂ →
      e₁ = e₂ ∨
      ∃ lookups k₁ k₂ err₁ err₂,
        (decodeLoop W path dir (metadata W path dir) GoMap.empty).1 = .ok lookups ∧
        k₁ ∈ GoMap.keys lookups ∧ k₂ ∈ GoMap.keys lookups ∧ k₁ ≠ k₂ ∧
        gcAnswer W lookups [] k₁ = .error err₁ ∧
        gcAnswer W lookups [] k₂ = .error err₂ ∧
        e₁ = "failed to gc import " ++ k₁ ++ ": " ++ err₁ ∧
        e₂ = "failed to gc import " ++ k₂ ++ ": " ++ err₂) := by
  have fails : ∀ ra rb : RangeOrder,
      (∃ e, (newImpl W ra ctxt fset path dir install).1 = .error e) →
      ∃ e, (newImpl W rb ctxt fset path dir install).1 = .error e := by
    intro ra rb ⟨e, he⟩
    cases hb : (newImpl W rb ctxt fset path dir install).1 with
    | error e' => exact ⟨e', rfl⟩
    | ok imp =>
      obtain ⟨_, _, t, _, _, _, _, hrun, _⟩ :=
        newImpl_ok_any_order W rb ra ctxt fset path dir install imp hs hb
      rw [he] at hrun
      cases hrun
  refine ⟨⟨fails ro₁ ro₂, fails ro₂ ro₁⟩, ?_, ?_⟩
  · intro imp₁ imp₂ h₁ h₂
    obtain ⟨lookups, t₁, t₂, hd, hi₁, hi₂, himp, hrun, hkeys, hget⟩ :=
      newImpl_ok_any_order W ro₁ ro₂ ctxt fset path dir install imp₁ hs h₁
    rw [h₂] at hrun
    exact ⟨lookups, t₁, t₂, hd, hi₁, hi₂, himp, Except.ok.inj hrun, hkeys, hget⟩
  · intro e₁ e₂ h₁ h₂
    rcases newImpl_two_orders W ro₁ ro₂ ctxt fset path dir install with
      heq | ⟨lookups, hq, hd⟩
    · rw [heq, h₂] at h₁
      exact Or.inl (Except.error.inj h₁).symm
    · have hr₁ := newImpl_of_lookups W ro₁ ctxt fset path dir install lookups hq hd
      have hr₂ := newImpl_of_lookups W ro₂ ctxt fset path dir install lookups hq hd
      rw [h₁] at hr₁
      rw [h₂] at hr₂
      cases hi₁ : (importAll W ro₁ lookups).1 with
      | ok t => rw [hi₁] at hr₁; cases hr₁
      | error a₁ =>
        cases hi₂ : (importAll W ro₂ lookups).1 with
        | ok t => rw [hi₂] at hr₂; cases hr₂
        | error a₂ =>
          rw [hi₁] at hr₁
          rw [hi₂] at hr₂
          have ha₁ : e₁ = a₁ := Except.error.inj hr₁
          have ha₂ : e₂ = a₂ := Except.error.inj hr₂
          rw [importAll_eq] at hi₁ hi₂
          obtain ⟨k₁, hk₁, err₁, hg₁, hm₁⟩ :=
            importLoop_error _ (hs lookups hd) (gcOf W lookups).init _ _ _ _ hi₁
          obtain ⟨k₂, hk₂, err₂, hg₂, hm₂⟩ :=
            importLoop_error _ (hs lookups hd) (gcOf W lookups).init _ _ _ _ hi₂
          by_cases hk : k₁ = k₂
          · left
            subst hk
            rw [hg₁] at hg₂
            rw [ha₁, ha₂, hm₁, hm₂, Except.error.inj hg₂]
          · right
            exact ⟨lookups, k₁, k₂, err₁, err₂, hd, (ro₁.perm _).mem_iff.1 hk₁,
              (ro₂.perm _).mem_iff.1 hk₂, hk, hg₁, hg₂, ha₁.trans hm₁, ha₂.trans hm₂⟩

/-- C10: on the same inputs (world, order of the import loop, build context, file set, target
path, working directory) `New` and `NewInstaller` make the same external calls, one fails iff
the other fails and then with the same error, and when they succeed both hand the same map of
packages to `srcimporter.New`, `New` with `install = false` and `NewInstaller` with
`install = true`. -/
theorem New_NewInstaller_differ_in_install_only (W : World File Pkg Ctxt FSet Imp St)
    (ro : RangeOrder) (ctxt : Ctxt) (fset : FSet) (path dir : String) :
    (New W ro ctxt fset path dir).2 = (NewInstaller W ro ctxt fset path dir).2 ∧
    (∀ e, (New W ro ctxt fset path dir).1 = .error e ↔
      (NewInstaller W ro ctxt fset path dir).1 = .error e) ∧
    (∀ imp, (New W ro ctxt fset path dir).1 = .ok imp →
      ∃ tpkgs, imp = W.srcimporterNew ctxt fset tpkgs false ∧
        (NewInstaller W ro ctxt fset path dir).1 = .ok (W.srcimporterNew ctxt fset tpkgs true)) ∧
    (∀ imp, (NewInstaller W ro ctxt fset path dir).1 = .ok imp →
      ∃ tpkgs, imp = W.srcimporterNew ctxt fset tpkgs true ∧
        (New W ro ctxt fset path dir).1 = .ok (W.srcimporterNew ctxt fset tpkgs false)) := by
  unfold New NewInstaller
  rcases hc : W.combinedOutput "go" (listArgs path) dir with ⟨out, _ | err⟩
  · cases hd : (decodeLoop W path dir (W.jsonDecode out) GoMap.empty).1 with
    | error e =>
      rw [newImpl_decode_error W ro ctxt fset path dir false out e hc hd,
        newImpl_decode_error W ro ctxt fset path dir true out e hc hd]
      refine ⟨rfl, fun _ => Iff.rfl, ?_, ?_⟩ <;> intro imp h <;> cases h
    | ok lookups =>
      cases hi : (importAll W ro lookups).1 with
      | error e =>
        rw [newImpl_import_error W ro ctxt fset path dir false out e lookups hc hd hi,
          newImpl_import_error W ro ctxt fset path dir true out e lookups hc hd hi]
        refine ⟨rfl, fun _ => Iff.rfl, ?_, ?_⟩ <;> intro imp h <;> cases h
      | ok tpkgs =>
        rw [newImpl_ok W ro ctxt fset path dir false out lookups tpkgs hc hd hi,
          newImpl_ok W ro ctxt fset path dir true out lookups tpkgs hc hd hi]
        refine ⟨rfl, fun e => ⟨fun h => ?_, fun h => ?_⟩, ?_, ?_⟩
        · cases h
        · cases h
        · intro imp h
          exact ⟨tpkgs, (Except.ok.inj h).symm, rfl⟩
        · intro imp h
          exact ⟨tpkgs, (Except.ok.inj h).symm, rfl⟩
  · rw [newImpl_exec_error W ro ctxt fset path dir false out err hc,
      newImpl_exec_error W ro ctxt fset path dir true out err hc]
    refine ⟨rfl, fun _ => Iff.rfl, ?_, ?_⟩ <;> intro imp h <;> cases h

end Claims

/-! ## The claims on the example sessions -/

/-- The importer of an example session in which no file carries another package answers every
path in the same way in every state. -/
theorem session_stateless (res : String × Option String)
    (stream : List (Except String pkgInfo)) (missing corrupt : List String)
    (lookups : GoMap String) : stateless (gcOf (session res stream missing corrupt []) lookups) := by
  intro s s' k
  show (match lookup lookups k with
    | .error e => ((.error e, s) : Except String String × List String)
    | .ok f => (if f ∈ corrupt then .error ("bad export data in " ++ f)
        else .ok ("package " ++ k), f :: s)).1 =
    (match lookup lookups k with
    | .error e => ((.error e, s') : Except String String × List String)
    | .ok f => (if f ∈ corrupt then .error ("bad export data in " ++ f)
        else .ok ("package " ++ k), f :: s')).1
  cases lookup lookups k <;> rfl

/-- C1 on the mixed session: the table holds `a` and `b`, the two binary-usable records. -/
theorem lookups_keys_are_binaryUsable_paths_witness :
    (decodeLoop sessionMixed "p" "d" (metadata sessionMixed "p" "d") GoMap.empty).1 =
      .ok [("b", "/pkg/b.a"), ("a", "/pkg/a.a")] ∧
    ((∀ k, k ∈ GoMap.keys ([("b", "/pkg/b.a"), ("a", "/pkg/a.a")] : GoMap String) ↔
      ∃ p, Except.ok p ∈ metadata sessionMixed "p" "d" ∧ p.ImportPath = k ∧ binaryUsable p) ∧
    (GoMap.keys ([("b", "/pkg/b.a"), ("a", "/pkg/a.a")] : GoMap String)).Nodup) :=
  ⟨rfl, lookups_keys_are_binaryUsable_paths sessionMixed "p" "d"
    (metadata sessionMixed "p" "d") [("b", "/pkg/b.a"), ("a", "/pkg/a.a")] rfl⟩

/-- C2 on the mixed session. -/
theorem tpkgs_decoded_eagerly_witness :
    (newImpl sessionMixed inOrder () () "p" "d" true).1 =
      .ok ([("a", "package a"), ("b", "package b")], true) ∧
    ∃ lookups tpkgs,
      (decodeLoop sessionMixed "p" "d" (metadata sessionMixed "p" "d") GoMap.empty).1 =
        .ok lookups ∧
      (([("a", "package a"), ("b", "package b")], true) : GoMap String × Bool) =
        sessionMixed.srcimporterNew () () tpkgs true ∧
      (∀ k, k ∈ GoMap.keys tpkgs ↔ k ∈ GoMap.keys lookups) ∧
      (∀ k, k ∈ GoMap.keys tpkgs ↔
        ∃ p, Except.ok p ∈ metadata sessionMixed "p" "d" ∧ p.ImportPath = k ∧
          binaryUsable p) ∧
      (GoMap.keys tpkgs).Nodup ∧
      ∀ k ∈ GoMap.keys lookups,
        Event.gcImport k ∈ (newImpl sessionMixed inOrder () () "p" "d" true).2 ∧
        ∃ pre post p, inOrder.visit (GoMap.keys lookups) = pre ++ k :: post ∧
          gcAnswer sessionMixed lookups pre k = .ok p ∧ GoMap.get? tpkgs k = some p :=
  ⟨rfl, tpkgs_decoded_eagerly sessionMixed inOrder () () "p" "d" true
    ([("a", "package a"), ("b", "package b")], true) rfl⟩

/-- C3 on the mixed session: the stale package `s` is in neither map. -/
theorem stale_absent_from_binary_map_witness :
    (newImpl sessionMixed inOrder () () "p" "d" false).1 =
      .ok ([("a", "package a"), ("b", "package b")], false) ∧
    uniquePaths (metadata sessionMixed "p" "d") ∧
    Except.ok pkgStale ∈ metadata sessionMixed "p" "d" ∧
    pkgStale.Stale = true ∧
    ∃ lookups tpkgs,
      (decodeLoop sessionMixed "p" "d" (metadata sessionMixed "p" "d") GoMap.empty).1 =
        .ok lookups ∧
      (importAll sessionMixed inOrder lookups).1 = .ok tpkgs ∧
      (([("a", "package a"), ("b", "package b")], false) : GoMap String × Bool) =
        sessionMixed.srcimporterNew () () tpkgs false ∧
      pkgStale.ImportPath ∉ GoMap.keys lookups ∧ pkgStale.ImportPath ∉ GoMap.keys tpkgs :=
  have hu : uniquePaths (metadata sessionMixed "p" "d") :=
    uniquePaths_of_nodup _ (by decide)
  have hr : Except.ok pkgStale ∈ metadata sessionMixed "p" "d" :=
    .tail _ (.tail _ (.tail _ (.head _)))
  ⟨rfl, hu, hr, rfl, stale_absent_from_binary_map sessionMixed inOrder () () "p" "d" false
    ([("a", "package a"), ("b", "package b")], false) rfl hu pkgStale hr rfl⟩

/-- C4 on the mixed session: the command `cmd` is in neither map and its file is not opened. -/
theorem special_executable_absent_witness :
    (newImpl sessionMixed inOrder () () "p" "d" false).1 =
      .ok ([("a", "package a"), ("b", "package b")], false) ∧
    uniquePaths (metadata sessionMixed "p" "d") ∧
    Except.ok pkgMain ∈ metadata sessionMixed "p" "d" ∧
    (pkgMain.ImportPath = "unsafe" ∨ pkgMain.Name = "main") ∧
    ∃ lookups tpkgs,
      (decodeLoop sessionMixed "p" "d" (metadata sessionMixed "p" "d") GoMap.empty).1 =
        .ok lookups ∧
      (importAll sessionMixed inOrder lookups).1 = .ok tpkgs ∧
      (([("a", "package a"), ("b", "package b")], false) : GoMap String × Bool) =
        sessionMixed.srcimporterNew () () tpkgs false ∧
      pkgMain.ImportPath ∉ GoMap.keys lookups ∧ pkgMain.ImportPath ∉ GoMap.keys tpkgs ∧
      Event.osOpen pkgMain ∉ (newImpl sessionMixed inOrder () () "p" "d" false).2 :=
  have hu : uniquePaths (metadata sessionMixed "p" "d") :=
    uniquePaths_of_nodup _ (by decide)
  have hr : Except.ok pkgMain ∈ metadata sessionMixed "p" "d" :=
    .tail _ (.tail _ (.head _))
  ⟨rfl, hu, hr, Or.inr rfl, special_executable_absent sessionMixed inOrder () () "p" "d" false
    ([("a", "package a"), ("b", "package b")], false) rfl hu pkgMain hr (Or.inr rfl)⟩

/-- C5 as stated fails: the record of package unsafe is not stale and its artifact (the empty
file name) cannot be opened, yet construction succeeds and returns a resolver. -/
theorem unopenable_nonstale_unsafe_succeeds :
    (sessionUnsafe.combinedOutput "go" (listArgs "p") "d").2 = none ∧
    Except.ok pkgUnsafe ∈ metadata sessionUnsafe "p" "d" ∧
    pkgUnsafe.Stale = false ∧
    sessionUnsafe.osOpen pkgUnsafe.Target = .error "open : no such file or directory" ∧
    (newImpl sessionUnsafe inOrder () () "p" "d" false).1 = .ok ([("a", "package a")], false) :=
  ⟨rfl, .head _, rfl, rfl, rfl⟩

/-- C5, as amended, on the session with a missing archive. -/
theorem unopenable_binaryUsable_fails_witness :
    (sessionMissing.combinedOutput "go" (listArgs "p") "d").2 = none ∧
    Except.ok pkgB ∈ metadata sessionMissing "p" "d" ∧
    binaryUsable pkgB ∧
    sessionMissing.osOpen pkgB.Target =
      .error "open /pkg/b.a: no such file or directory" ∧
    metadata sessionMissing "p" "d" = [.ok pkgStale, .ok pkgA] ++ .ok pkgB :: [] ∧
    (∀ x ∈ ([.ok pkgStale, .ok pkgA] : List (Except String pkgInfo)), ∃ p, x = Except.ok p ∧
      (binaryUsable p → ∃ fi, sessionMissing.osOpen p.Target = .ok fi)) ∧
    (∃ e, (newImpl sessionMissing inOrder () () "p" "d" false).1 = .error e) ∧
    (newImpl sessionMissing inOrder () () "p" "d" false).1 =
      .error ("failed to open " ++ pkgB.Target ++ ": " ++
        "open /pkg/b.a: no such file or directory") ∧
    ∀ k, Event.gcImport k ∉ (newImpl sessionMissing inOrder () () "p" "d" false).2 :=
  have hr : Except.ok pkgB ∈ metadata sessionMissing "p" "d" := .tail _ (.tail _ (.head _))
  have hu : binaryUsable pkgB := by decide
  have hpre : ∀ x ∈ ([.ok pkgStale, .ok pkgA] : List (Except String pkgInfo)),
      ∃ p, x = Except.ok p ∧
      (binaryUsable p → ∃ fi, sessionMissing.osOpen p.Target = .ok fi) := by
    intro x hx
    rcases List.mem_cons.1 hx with rfl | hx
    · exact ⟨pkgStale, rfl, fun _ => ⟨"/pkg/s.a", rfl⟩⟩
    · rcases List.mem_cons.1 hx with rfl | hx
      · exact ⟨pkgA, rfl, fun _ => ⟨"/pkg/a.a", rfl⟩⟩
      · cases hx
  ⟨rfl, hr, hu, rfl, rfl, hpre,
    (unopenable_binaryUsable_fails sessionMissing inOrder () () "p" "d" false
      pkgB "open /pkg/b.a: no such file or directory" rfl hr hu rfl).1,
    (unopenable_binaryUsable_fails sessionMissing inOrder () () "p" "d" false
      pkgB "open /pkg/b.a: no such file or directory" rfl hr hu rfl).2
        [.ok pkgStale, .ok pkgA] [] rfl hpre⟩

/-- C6 as stated fails: decoding the second record of the stream yields "unexpected EOF", yet
construction does not fail with the "failed to parse list" error: the archive of the record
before it cannot be opened, and the error returned is the "failed to open" error. -/
theorem malformed_after_missing_archive :
    (sessionMissingTruncated.combinedOutput "go" (listArgs "p") "d").2 = none ∧
    metadata sessionMissingTruncated "p" "d" = [.ok pkgB, .error "unexpected EOF"] ∧
    (newImpl sessionMissingTruncated inOrder () () "p" "d" false).1 =
      .error "failed to open /pkg/b.a: open /pkg/b.a: no such file or directory" ∧
    (newImpl sessionMissingTruncated inOrder () () "p" "d" false).1 ≠
      .error ("failed to parse list for " ++ "p" ++ " in " ++ "d" ++ ": " ++ "unexpected EOF") :=
  ⟨rfl, rfl, rfl, fun h => absurd (Except.error.inj h) (by decide)⟩

/-- C6, as amended, on the truncated session. -/
theorem malformed_stream_fails_witness :
    (sessionTruncated.combinedOutput "go" (listArgs "p") "d").2 = none ∧
    Except.error "unexpected EOF" ∈ metadata sessionTruncated "p" "d" ∧
    metadata sessionTruncated "p" "d" = [.ok pkgA] ++ .error "unexpected EOF" :: [] ∧
    (∀ x ∈ ([.ok pkgA] : List (Except String pkgInfo)), ∃ p, x = Except.ok p ∧
      (binaryUsable p → ∃ fi, sessionTruncated.osOpen p.Target = .ok fi)) ∧
    (∃ e, (newImpl sessionTruncated inOrder () () "p" "d" false).1 = .error e) ∧
    (∀ k, Event.gcImport k ∉ (newImpl sessionTruncated inOrder () () "p" "d" false).2) ∧
    (newImpl sessionTruncated inOrder () () "p" "d" false).1 =
      .error ("failed to parse list for " ++ "p" ++ " in " ++ "d" ++ ": " ++ "unexpected EOF") :=
  have hm : Except.error "unexpected EOF" ∈ metadata sessionTruncated "p" "d" :=
    .tail _ (.head _)
  have hpre : ∀ x ∈ ([.ok pkgA] : List (Except String pkgInfo)), ∃ p, x = Except.ok p ∧
      (binaryUsable p → ∃ fi, sessionTruncated.osOpen p.Target = .ok fi) := by
    intro x hx
    rcases List.mem_cons.1 hx with rfl | hx
    · exact ⟨pkgA, rfl, fun _ => ⟨"/pkg/a.a", rfl⟩⟩
    · cases hx
  ⟨rfl, hm, rfl, hpre,
    (malformed_stream_fails sessionTruncated inOrder () () "p" "d" false "unexpected EOF"
      rfl hm).1,
    (malformed_stream_fails sessionTruncated inOrder () () "p" "d" false "unexpected EOF"
      rfl hm).2.1,
    (malformed_stream_fails sessionTruncated inOrder () () "p" "d" false "unexpected EOF"
      rfl hm).2.2 [.ok pkgA] [] rfl hpre⟩

/-- C7 as stated fails: the importer returns an error for the import path `a` of the lookup
table when it is asked for it first, yet construction, visiting `b` before `a`, returns a
resolver: reading the archive of `b` left the package `a` in the cache of the importer. -/
theorem undecodable_path_yet_resolver :
    (sessionCached.combinedOutput "go" (listArgs "p") "d").2 = none ∧
    (decodeLoop sessionCached "p" "d" (metadata sessionCached "p" "d") GoMap.empty).1 =
      .ok [("b", "/pkg/b.a"), ("a", "/pkg/a.a")] ∧
    "a" ∈ GoMap.keys ([("b", "/pkg/b.a"), ("a", "/pkg/a.a")] : GoMap String) ∧
    gcAnswer sessionCached [("b", "/pkg/b.a"), ("a", "/pkg/a.a")] [] "a" =
      .error "bad export data in /pkg/a.a" ∧
    inOrder.visit (GoMap.keys ([("b", "/pkg/b.a"), ("a", "/pkg/a.a")] : GoMap String)) =
      ["b", "a"] ∧
    (newImpl sessionCached inOrder () () "p" "d" false).1 =
      .ok ([("a", "package a"), ("b", "package b")], false) :=
  ⟨rfl, rfl, .tail _ (.head _), rfl, rfl, rfl⟩

/-- C7, as amended, on the session with one corrupt archive, visiting `a` before `b`. -/
theorem failing_import_call_fails_witness :
    (sessionCorrupt.combinedOutput "go" (listArgs "p") "d").2 = none ∧
    (decodeLoop sessionCorrupt "p" "d" (metadata sessionCorrupt "p" "d") GoMap.empty).1 =
      .ok [("b", "/pkg/b.a"), ("a", "/pkg/a.a")] ∧
    reversed.visit (GoMap.keys ([("b", "/pkg/b.a"), ("a", "/pkg/a.a")] : GoMap String)) =
      ["a"] ++ "b" :: [] ∧
    gcAnswer sessionCorrupt [("b", "/pkg/b.a"), ("a", "/pkg/a.a")] ["a"] "b" =
      .error "bad export data in /pkg/b.a" ∧
    (∀ pre₁ x post₁, ["a"] = pre₁ ++ x :: post₁ →
      ∃ p, gcAnswer sessionCorrupt [("b", "/pkg/b.a"), ("a", "/pkg/a.a")] pre₁ x = .ok p) ∧
    (∃ pre' k' post' err',
      reversed.visit (GoMap.keys ([("b", "/pkg/b.a"), ("a", "/pkg/a.a")] : GoMap String)) =
        pre' ++ k' :: post' ∧
      k' ∈ GoMap.keys ([("b", "/pkg/b.a"), ("a", "/pkg/a.a")] : GoMap String) ∧
      (∀ pre₁ x post₁, pre' = pre₁ ++ x :: post₁ →
        ∃ p, gcAnswer sessionCorrupt [("b", "/pkg/b.a"), ("a", "/pkg/a.a")] pre₁ x = .ok p) ∧
      gcAnswer sessionCorrupt [("b", "/pkg/b.a"), ("a", "/pkg/a.a")] pre' k' = .error err' ∧
      (newImpl sessionCorrupt reversed () () "p" "d" false).1 =
        .error ("failed to gc import " ++ k' ++ ": " ++ err')) ∧
    (newImpl sessionCorrupt reversed () () "p" "d" false).1 =
      .error ("failed to gc import " ++ "b" ++ ": " ++ "bad export data in /pkg/b.a") :=
  have hpre : ∀ pre₁ x post₁, ["a"] = pre₁ ++ x :: post₁ →
      ∃ p, gcAnswer sessionCorrupt [("b", "/pkg/b.a"), ("a", "/pkg/a.a")] pre₁ x = .ok p := by
    intro pre₁ x post₁ h
    cases pre₁ with
    | nil =>
      cases h
      exact ⟨"package a", rfl⟩
    | cons y pre₂ =>
      cases pre₂ <;> cases h
  ⟨rfl, rfl, rfl, rfl, hpre,
    (failing_import_call_fails sessionCorrupt reversed () () "p" "d" false
      [("b", "/pkg/b.a"), ("a", "/pkg/a.a")] ["a"] "b" [] "bad export data in /pkg/b.a"
      rfl rfl rfl rfl).1,
    (failing_import_call_fails sessionCorrupt reversed () () "p" "d" false
      [("b", "/pkg/b.a"), ("a", "/pkg/a.a")] ["a"] "b" [] "bad export data in /pkg/b.a"
      rfl rfl rfl rfl).2 hpre⟩

/-- C8 on the session whose query fails. -/
theorem query_failure_fails_witness :
    sessionNoModule.combinedOutput "go" (listArgs "p") "d" =
      ("go: cannot find main module", some "exit status 1") ∧
    (newImpl sessionNoModule inOrder () () "p" "d" true).1 =
      .error ("failed to start list for " ++ "p" ++ " in " ++ "d" ++ ": " ++ "exit status 1" ++
        "\n" ++ "go: cannot find main module") ∧
    (newImpl sessionNoModule inOrder () () "p" "d" true).2 = [.exec "go" (listArgs "p") "d"] ∧
    (∀ r, Event.decode r ∉ (newImpl sessionNoModule inOrder () () "p" "d" true).2) ∧
    (∀ p, Event.osOpen p ∉ (newImpl sessionNoModule inOrder () () "p" "d" true).2) ∧
    (∀ k, Event.gcImport k ∉ (newImpl sessionNoModule inOrder () () "p" "d" true).2) :=
  ⟨rfl, query_failure_fails sessionNoModule inOrder () () "p" "d" true
    "go: cannot find main module" "exit status 1" rfl⟩

/-- C9 as stated fails: with the same lookup table and the same decoder, visiting `b` before
`a` and visiting `a` before `b` make `newImpl` return two different errors. -/
theorem visit_order_changes_error :
    (newImpl sessionTwoCorrupt inOrder () () "p" "d" false).1 =
      .error "failed to gc import b: bad export data in /pkg/b.a" ∧
    (newImpl sessionTwoCorrupt reversed () () "p" "d" false).1 =
      .error "failed to gc import a: bad export data in /pkg/a.a" ∧
    (newImpl sessionTwoCorrupt inOrder () () "p" "d" false).1 ≠
      (newImpl sessionTwoCorrupt reversed () () "p" "d" false).1 :=
  ⟨rfl, rfl, fun h => absurd (Except.error.inj h) (by decide)⟩

/-- C9, as amended, on the session with two corrupt archives, whose importer answers every path
in the same way in every state: both orders fail, with the errors of `b` and of `a`. -/
theorem result_across_visit_orders_witness :
    (∀ lookups,
      (decodeLoop sessionTwoCorrupt "p" "d" (metadata sessionTwoCorrupt "p" "d")
        GoMap.empty).1 = .ok lookups → stateless (gcOf sessionTwoCorrupt lookups)) ∧
    ((∃ e, (newImpl sessionTwoCorrupt inOrder () () "p" "d" false).1 = .error e) ↔
      (∃ e, (newImpl sessionTwoCorrupt reversed () () "p" "d" false).1 = .error e)) ∧
    ("failed to gc import b: bad export data in /pkg/b.a" =
        "failed to gc import a: bad export data in /pkg/a.a" ∨
      ∃ lookups k₁ k₂ err₁ err₂,
        (decodeLoop sessionTwoCorrupt "p" "d" (metadata sessionTwoCorrupt "p" "d")
          GoMap.empty).1 = .ok lookups ∧
        k₁ ∈ GoMap.keys lookups ∧ k₂ ∈ GoMap.keys lookups ∧ k₁ ≠ k₂ ∧
        gcAnswer sessionTwoCorrupt lookups [] k₁ = .error err₁ ∧
        gcAnswer sessionTwoCorrupt lookups [] k₂ = .error err₂ ∧
        "failed to gc import b: bad export data in /pkg/b.a" =
          "failed to gc import " ++ k₁ ++ ": " ++ err₁ ∧
        "failed to gc import a: bad export data in /pkg/a.a" =
          "failed to gc import " ++ k₂ ++ ": " ++ err₂) :=
  have hs : ∀ lookups,
      (decodeLoop sessionTwoCorrupt "p" "d" (metadata sessionTwoCorrupt "p" "d")
        GoMap.empty).1 = .ok lookups → stateless (gcOf sessionTwoCorrupt lookups) :=
    fun lookups _ => session_stateless _ _ _ _ lookups
  ⟨hs,
    (result_across_visit_orders sessionTwoCorrupt inOrder reversed () () "p" "d" false hs).1,
    (result_across_visit_orders sessionTwoCorrupt inOrder reversed () () "p" "d" false hs).2.2
      _ _ rfl rfl⟩

end hybridimporter
